import Mathlib

/-!
Shallow embedding of the chore-api service layer (src/lib/service.py).

Entities (Person / Area / Act / ToDo / Routine) carry a semi-structured
payload dictionary `data`; the engine reads and writes a fixed set of keys
in it.  We embed the payload as a record of optional fields (`none` = key
absent), one field per key the engine touches, which is faithful because
the engine only ever reads those keys.  Timestamps are naturals; the clock
is a function from the number of `time.time()` calls made so far to the
value returned, so each separate `time.time()` call in the source is one
`tick` here.  Notifications (redis publish) are recorded as an ordered
event list holding the `kind`/`action` pair of each published message.

Python `del d["key"]` raises `KeyError` when the key is absent; operations
that can raise are embedded in `Except String`.  An operation that raises
inside an HTTP request leaves no persisted state change (the session is
closed without commit), which the sequence-level semantics below mirrors
by discarding the erroring transition.
-/

/-- A published notification: the `kind` and `action` fields of the message. -/
structure Event where
  kind : String
  action : String
deriving DecidableEq, Repr

/-- A nested template payload one level down (the engine never reads deeper). -/
structure TplInner where
  name : Option String := none
  status : Option String := none
  text : Option String := none
deriving DecidableEq, Repr

/-- A template payload (the keys the engine reads of it, plus a nested
`todo` template spec). -/
structure Tpl where
  name : Option String := none
  status : Option String := none
  text : Option String := none
  todo : Option TplInner := none
deriving DecidableEq, Repr

/-- One embedded task dictionary inside a routine payload. -/
structure RTask where
  id : Option Nat := none
  text : String := ""
  todo : Option Nat := none
  start : Option Nat := none
  end_ : Option Nat := none
  paused : Option Bool := none
  skipped : Option Bool := none
  notified : Option Nat := none
deriving DecidableEq, Repr

def TplInner.toTpl (t : TplInner) : Tpl :=
  { name := t.name, status := t.status, text := t.text, todo := none }

/-- The payload (`data`) dictionary of a status entity, one optional field
per key the engine reads or writes. -/
structure ModelData where
  start : Option Nat := none
  end_ : Option Nat := none
  paused : Option Bool := none
  skipped : Option Bool := none
  expired : Option Bool := none
  notified : Option Nat := none
  tasks : Option (List RTask) := none
  text : Option String := none
  name : Option String := none
  status : Option String := none
  todos : Option Bool := none
  area : Option Nat := none
  act : Option Tpl := none
  todo : Option Tpl := none
deriving DecidableEq, Repr

/-- A status entity row (Routine / ToDo / Area / Act all share this shape;
the engine distinguishes them only by which payload keys it consults). -/
structure Model where
  id : Nat := 0
  personId : Nat := 0
  name : String := ""
  status : String := "opened"
  created : Nat := 0
  updated : Option Nat := none
  data : ModelData := {}
deriving DecidableEq, Repr

/-- The session-visible world: stored rows, the clock, and the events
published so far. -/
structure World where
  todos : List Model := []
  areas : List Model := []
  acts : List Model := []
  nextId : Nat := 0
  clock : Nat → Nat := fun _ => 0
  ticks : Nat := 0
  events : List Event := []

/-- One `time.time()` call. -/
def tick (w : World) : Nat × World :=
  (w.clock w.ticks, { w with ticks := w.ticks + 1 })

/-- BaseStatus.notify: stamps `data["notified"]` and `updated` with two
separate `time.time()` reads, then publishes `{kind, action, ...}`. -/
def BaseStatus.notify (kind action : String) (m : Model) (w : World) : Model × World :=
  let (t1, w) := tick w
  let (t2, w) := tick w
  let m := { m with data.notified := some t1, updated := some t2 }
  (m, { w with events := w.events ++ [⟨kind, action⟩] })

/-- BaseValue.wrong: positive → negative, else no-op. -/
def BaseValue.wrong (kind : String) (m : Model) (w : World) : Bool × Model × World :=
  if m.status = "positive" then
    let m := { m with status := "negative" }
    let (m, w) := BaseStatus.notify kind "wrong" m w
    (true, m, w)
  else (false, m, w)

/-- BaseValue.right: negative → positive, else no-op. -/
def BaseValue.right (kind : String) (m : Model) (w : World) : Bool × Model × World :=
  if m.status = "negative" then
    let m := { m with status := "positive" }
    let (m, w) := BaseStatus.notify kind "right" m w
    (true, m, w)
  else (false, m, w)

/-- BaseAction.remind: notify only. -/
def BaseAction.remind (kind : String) (m : Model) (w : World) : Bool × Model × World :=
  let (m, w) := BaseStatus.notify kind "remind" m w
  (true, m, w)

/-- BaseAction.pause: guard `"paused" not in data or not data["paused"]`. -/
def BaseAction.pause (kind : String) (m : Model) (w : World) : Bool × Model × World :=
  if m.data.paused ≠ some true then
    let m := { m with data.paused := some true }
    let (m, w) := BaseStatus.notify kind "pause" m w
    (true, m, w)
  else (false, m, w)

/-- BaseAction.unpause: guard `"paused" in data and data["paused"]`. -/
def BaseAction.unpause (kind : String) (m : Model) (w : World) : Bool × Model × World :=
  if m.data.paused = some true then
    let m := { m with data.paused := some false }
    let (m, w) := BaseStatus.notify kind "unpause" m w
    (true, m, w)
  else (false, m, w)

/-- BaseAction.skip: sets skipped, `end`=now, status closed. -/
def BaseAction.skip (kind : String) (m : Model) (w : World) : Bool × Model × World :=
  if m.data.skipped ≠ some true then
    let m := { m with data.skipped := some true }
    let (t, w) := tick w
    let m := { m with data.end_ := some t, status := "closed" }
    let (m, w) := BaseStatus.notify kind "skip" m w
    (true, m, w)
  else (false, m, w)

/-- BaseAction.unskip: clears skipped, `del data["end"]` (KeyError when
absent), status opened. -/
def BaseAction.unskip (kind : String) (m : Model) (w : World) :
    Except String (Bool × Model × World) :=
  if m.data.skipped = some true then
    let m := { m with data.skipped := some false }
    match m.data.end_ with
    | none => .error "KeyError: end"
    | some _ =>
      let m := { m with data.end_ := none, status := "opened" }
      let (m, w) := BaseStatus.notify kind "unskip" m w
      .ok (true, m, w)
  else .ok (false, m, w)

/-- BaseAction.complete: guard `"end" not in data or status != "closed"`. -/
def BaseAction.complete (kind : String) (m : Model) (w : World) : Bool × Model × World :=
  if m.data.end_ = none ∨ m.status ≠ "closed" then
    let (t, w) := tick w
    let m := { m with data.end_ := some t, status := "closed" }
    let (m, w) := BaseStatus.notify kind "complete" m w
    (true, m, w)
  else (false, m, w)

/-- BaseAction.uncomplete: guard `"end" in data or status == "closed"`;
`del data["end"]` raises KeyError when `end` is absent. -/
def BaseAction.uncomplete (kind : String) (m : Model) (w : World) :
    Except String (Bool × Model × World) :=
  if m.data.end_.isSome ∨ m.status = "closed" then
    match m.data.end_ with
    | none => .error "KeyError: end"
    | some _ =>
      let m := { m with data.end_ := none, status := "opened" }
      let (m, w) := BaseStatus.notify kind "uncomplete" m w
      .ok (true, m, w)
  else .ok (false, m, w)

/-- BaseAction.expire: sets expired, `end`=now, status closed. -/
def BaseAction.expire (kind : String) (m : Model) (w : World) : Bool × Model × World :=
  if m.data.expired ≠ some true then
    let m := { m with data.expired := some true }
    let (t, w) := tick w
    let m := { m with data.end_ := some t, status := "closed" }
    let (m, w) := BaseStatus.notify kind "expire" m w
    (true, m, w)
  else (false, m, w)

/-- BaseAction.unexpire: clears expired, `del data["end"]` (KeyError when
absent), status opened. -/
def BaseAction.unexpire (kind : String) (m : Model) (w : World) :
    Except String (Bool × Model × World) :=
  if m.data.expired = some true then
    let m := { m with data.expired := some false }
    match m.data.end_ with
    | none => .error "KeyError: end"
    | some _ =>
      let m := { m with data.end_ := none, status := "opened" }
      let (m, w) := BaseStatus.notify kind "unexpire" m w
      .ok (true, m, w)
  else .ok (false, m, w)

/-- A task is "active": `"start" in task and "end" not in task`. -/
def isActive (t : RTask) : Bool := t.start.isSome && t.end_.isNone

/-- Replace the element at an index by applying a function to it (how the
Python code mutates one task dict shared with the routine payload list). -/
def listModify {α : Type} (f : α → α) : Nat → List α → List α
  | _, [] => []
  | 0, t :: ts => f t :: ts
  | n + 1, t :: ts => t :: listModify f n ts

/-- Apply a mutation to task `i` of the routine payload. -/
def setTaskAt (r : Model) (i : Nat) (f : RTask → RTask) : Model :=
  { r with data.tasks := r.data.tasks.map (listModify f i) }

/-- The task dict at index `i` of the routine payload, when present. -/
def taskAt? (r : Model) (i : Nat) : Option RTask :=
  match r.data.tasks with
  | none => none
  | some ts => ts[i]?

/-- TaskAction.notify: stamps the routine's `data["notified"]`, the
routine's `updated` and the task's `"notified"` with three separate
`time.time()` reads, then publishes a `kind="task"` message. -/
def TaskAction.notifyAt (action : String) (i : Nat) (r : Model) (w : World) :
    Model × World :=
  let (t1, w) := tick w
  let (t2, w) := tick w
  let (t3, w) := tick w
  let r := { r with data.notified := some t1, updated := some t2 }
  let r := setTaskAt r i (fun u => { u with notified := some t3 })
  (r, { w with events := w.events ++ [⟨"task", action⟩] })

def RoutineAction.complete (r : Model) (w : World) : Bool × Model × World :=
  BaseAction.complete "routine" r w

def RoutineAction.uncomplete (r : Model) (w : World) :
    Except String (Bool × Model × World) :=
  BaseAction.uncomplete "routine" r w

/-- First loop of RoutineAction.check: `true` when some task has `start`
and lacks `end` (the loop early-returns). -/
def checkActiveLoop : List RTask → Bool
  | [] => false
  | t :: ts => if t.start.isSome && t.end_.isNone then true else checkActiveLoop ts

/-- Second loop of RoutineAction.check: index of the first task lacking
`start`, tracked the way the iteration does. -/
def checkFirstPendingAux (i : Nat) : List RTask → Option Nat
  | [] => none
  | t :: ts => if t.start = none then some i else checkFirstPendingAux (i + 1) ts

def checkFirstPending (ts : List RTask) : Option Nat :=
  checkFirstPendingAux 0 ts

/-- RoutineAction.check: return if no task list or some task is active;
else start the first pending task (notifying "pause" when it carries
`paused=true`, "start" otherwise); else complete the routine. -/
def RoutineAction.check (r : Model) (w : World) : Model × World :=
  match r.data.tasks with
  | none => (r, w)
  | some ts =>
    if checkActiveLoop ts then (r, w)
    else
      match checkFirstPending ts with
      | some i =>
        let (tm, w) := tick w
        let r := setTaskAt r i (fun u => { u with start := some tm })
        let act :=
          match ts[i]? with
          | some t => if t.paused = some true then "pause" else "start"
          | none => "start"
        TaskAction.notifyAt act i r w
      | none => (RoutineAction.complete r w).2

def storeTodo (m : Model) (w : World) : World :=
  { w with todos := w.todos.map (fun x => if x.id = m.id then m else x) }

def storeArea (m : Model) (w : World) : World :=
  { w with areas := w.areas.map (fun x => if x.id = m.id then m else x) }

def storeAct (m : Model) (w : World) : World :=
  { w with acts := w.acts.map (fun x => if x.id = m.id then m else x) }

/-- Copy a template payload into an entity payload (build's
`fields["data"].update(copy.deepcopy(template))` on a fresh dict). -/
def Tpl.toData (t : Tpl) : ModelData :=
  { name := t.name, status := t.status, text := t.text,
    todo := t.todo.map TplInner.toTpl }

/-- ToDoAction.create reached from the cascades (Area.wrong / negative
Act.create): BaseStatus.build from a template plus an optional inline
`{"area": id}` data argument, then add + notify.  The new row's `status`
column default ("opened") is the mysql model's column default, which
lives outside src/ and is modelled from the spec here ("status defaults
to the active state literal"). -/
def ToDoAction.create (personId : Nat) (areaId : Option Nat) (tpl : Tpl)
    (w : World) : Model × World :=
  let data := tpl.toData
  let data := match areaId with
    | some a => { data with area := some a }
    | none => data
  let status := data.status.getD "opened"
  let m : Model := { id := w.nextId, personId := personId,
                     name := data.name.getD "", status := status, data := data }
  let w := { w with todos := w.todos ++ [m], nextId := w.nextId + 1 }
  let (m, w) := BaseStatus.notify "todo" "create" m w
  (m, storeTodo m w)

/-- ActValue.create: build from the template (`status` keyword argument
winning over the template payload), add + notify, then — when the new act
is negative and its payload carries a `todo` template — create a linked
ToDo. -/
def ActValue.create (personId : Nat) (statusArg : Option String) (tpl : Tpl)
    (w : World) : Model × World :=
  let data := tpl.toData
  let status := statusArg.getD (data.status.getD "opened")
  let m : Model := { id := w.nextId, personId := personId,
                     name := data.name.getD "", status := status, data := data }
  let w := { w with acts := w.acts ++ [m], nextId := w.nextId + 1 }
  let (m, w) := BaseStatus.notify "act" "create" m w
  let w := storeAct m w
  let w :=
    if m.status = "negative" then
      match m.data.todo with
      | some t => (ToDoAction.create m.personId none t w).2
      | none => w
    else w
  (m, w)

/-- AreaValue.wrong: the BaseValue.wrong flip plus creation of a linked
ToDo from the payload's `todo` template, recording this area's id. -/
def AreaValue.wrong (m : Model) (w : World) : Bool × Model × World :=
  if m.status = "positive" then
    let m := { m with status := "negative" }
    let (m, w) := BaseStatus.notify "area" "wrong" m w
    let w :=
      match m.data.todo with
      | some tpl => (ToDoAction.create m.personId (some m.id) tpl w).2
      | none => w
    (true, m, w)
  else (false, m, w)

/-- `session.query(Area).get(id)` followed by AreaValue.right; a missing
id gives `None`, on which `.status` raises. -/
def AreaValue.rightById (aid : Nat) (w : World) : Except String World :=
  match w.areas.find? (fun a => a.id = aid) with
  | none => .error "AttributeError: NoneType"
  | some a =>
    let (_, a, w) := BaseValue.right "area" a w
    .ok (storeArea a w)

/-- ToDoAction.complete: the generic guarded complete, then — on the
changed branch — Area.right on the payload's `area` id when present and
creation of a positive Act from the payload's `act` template when
present. -/
def ToDoAction.complete (m : Model) (w : World) :
    Except String (Bool × Model × World) :=
  if m.data.end_ = none ∨ m.status ≠ "closed" then
    let (t, w) := tick w
    let m := { m with data.end_ := some t, status := "closed" }
    let (m, w) := BaseStatus.notify "todo" "complete" m w
    match m.data.area with
    | some aid =>
      match AreaValue.rightById aid w with
      | .error e => .error e
      | .ok w =>
        match m.data.act with
        | some tpl => .ok (true, m, (ActValue.create m.personId (some "positive") tpl w).2)
        | none => .ok (true, m, w)
    | none =>
      match m.data.act with
      | some tpl => .ok (true, m, (ActValue.create m.personId (some "positive") tpl w).2)
      | none => .ok (true, m, w)
  else .ok (false, m, w)

/-- `session.query(ToDo).get(id)` followed by ToDoAction.complete,
storing the row back; a missing id gives `None`, on which `.data`
raises. -/
def ToDoAction.completeById (tid : Nat) (w : World) : Except String World :=
  match w.todos.find? (fun a => a.id = tid) with
  | none => .error "AttributeError: NoneType"
  | some td =>
    match ToDoAction.complete td w with
    | .error e => .error e
    | .ok (_, td, w) => .ok (storeTodo td w)

/-- `session.query(ToDo).get(id)` followed by the generic uncomplete. -/
def ToDoAction.uncompleteById (tid : Nat) (w : World) : Except String World :=
  match w.todos.find? (fun a => a.id = tid) with
  | none => .error "AttributeError: NoneType"
  | some td =>
    match BaseAction.uncomplete "todo" td w with
    | .error e => .error e
    | .ok (_, td, w) => .ok (storeTodo td w)

/-- The task-level patch handler's lookup `routine.data["tasks"][task_id]`:
a missing `tasks` key or an out-of-range index raises. -/
def taskLookup (i : Nat) (r : Model) : Except String RTask :=
  match r.data.tasks with
  | none => .error "KeyError: tasks"
  | some ts =>
    match ts[i]? with
    | none => .error "IndexError: tasks"
    | some t => .ok t

/-- TaskAction.remind on task `i`. -/
def TaskAction.remind (i : Nat) (r : Model) (w : World) :
    Except String (Bool × Model × World) :=
  match taskLookup i r with
  | .error e => .error e
  | .ok _ =>
    let (r, w) := TaskAction.notifyAt "remind" i r w
    .ok (true, r, w)

/-- TaskAction.pause on task `i`. -/
def TaskAction.pause (i : Nat) (r : Model) (w : World) :
    Except String (Bool × Model × World) :=
  match taskLookup i r with
  | .error e => .error e
  | .ok t =>
    if t.paused ≠ some true then
      let r := setTaskAt r i (fun u => { u with paused := some true })
      let (r, w) := TaskAction.notifyAt "pause" i r w
      .ok (true, r, w)
    else .ok (false, r, w)

/-- TaskAction.unpause on task `i`. -/
def TaskAction.unpause (i : Nat) (r : Model) (w : World) :
    Except String (Bool × Model × World) :=
  match taskLookup i r with
  | .error e => .error e
  | .ok t =>
    if t.paused = some true then
      let r := setTaskAt r i (fun u => { u with paused := some false })
      let (r, w) := TaskAction.notifyAt "unpause" i r w
      .ok (true, r, w)
    else .ok (false, r, w)

/-- TaskAction.skip on task `i`: set skipped, `end`=now (`start`=`end`
when unset), notify, then RoutineAction.check. -/
def TaskAction.skip (i : Nat) (r : Model) (w : World) :
    Except String (Bool × Model × World) :=
  match taskLookup i r with
  | .error e => .error e
  | .ok t =>
    if t.skipped ≠ some true then
      let r := setTaskAt r i (fun u => { u with skipped := some true })
      let (tm, w) := tick w
      let r := setTaskAt r i (fun u =>
        { u with end_ := some tm,
                 start := if u.start = none then some tm else u.start })
      let (r, w) := TaskAction.notifyAt "skip" i r w
      let (r, w) := RoutineAction.check r w
      .ok (true, r, w)
    else .ok (false, r, w)

/-- TaskAction.unskip on task `i`: clear skipped, `del task["end"]`
(KeyError when absent), notify, then routine-level uncomplete. -/
def TaskAction.unskip (i : Nat) (r : Model) (w : World) :
    Except String (Bool × Model × World) :=
  match taskLookup i r with
  | .error e => .error e
  | .ok t =>
    if t.skipped = some true then
      let r := setTaskAt r i (fun u => { u with skipped := some false })
      match t.end_ with
      | none => .error "KeyError: end"
      | some _ =>
        let r := setTaskAt r i (fun u => { u with end_ := none })
        let (r, w) := TaskAction.notifyAt "unskip" i r w
        match RoutineAction.uncomplete r w with
        | .error e => .error e
        | .ok (_, r, w) => .ok (true, r, w)
    else .ok (false, r, w)

/-- TaskAction.complete on task `i`: set `end`=now (`start`=`end` when
unset), notify, RoutineAction.check, then complete the linked ToDo when
the task carries a `todo` id. -/
def TaskAction.complete (i : Nat) (r : Model) (w : World) :
    Except String (Bool × Model × World) :=
  match taskLookup i r with
  | .error e => .error e
  | .ok t =>
    if t.end_ = none then
      let (tm, w) := tick w
      let r := setTaskAt r i (fun u =>
        { u with end_ := some tm,
                 start := if u.start = none then some tm else u.start })
      let (r, w) := TaskAction.notifyAt "complete" i r w
      let (r, w) := RoutineAction.check r w
      match t.todo with
      | some tid =>
        match ToDoAction.completeById tid w with
        | .error e => .error e
        | .ok w => .ok (true, r, w)
      | none => .ok (true, r, w)
    else .ok (false, r, w)

/-- TaskAction.uncomplete on task `i`: `del task["end"]`, notify,
routine-level uncomplete, then uncomplete the linked ToDo when the task
carries a `todo` id. -/
def TaskAction.uncomplete (i : Nat) (r : Model) (w : World) :
    Except String (Bool × Model × World) :=
  match taskLookup i r with
  | .error e => .error e
  | .ok t =>
    if t.end_.isSome then
      let r := setTaskAt r i (fun u => { u with end_ := none })
      let (r, w) := TaskAction.notifyAt "uncomplete" i r w
      match RoutineAction.uncomplete r w with
      | .error e => .error e
      | .ok (_, r, w) =>
        match t.todo with
        | some tid =>
          match ToDoAction.uncompleteById tid w with
          | .error e => .error e
          | .ok w => .ok (true, r, w)
        | none => .ok (true, r, w)
    else .ok (false, r, w)

/-- Loop of RoutineAction.next: index of the first active task. -/
def firstActiveAux (i : Nat) : List RTask → Option Nat
  | [] => none
  | t :: ts =>
    if t.start.isSome && t.end_.isNone then some i else firstActiveAux (i + 1) ts

/-- RoutineAction.next: complete the first active task; `false` when no
task is active.  Reads `routine.data["tasks"]` directly (KeyError when
the key is absent). -/
def RoutineAction.next (r : Model) (w : World) :
    Except String (Bool × Model × World) :=
  match r.data.tasks with
  | none => .error "KeyError: tasks"
  | some ts =>
    match firstActiveAux 0 ts with
    | some i =>
      match TaskAction.complete i r w with
      | .error e => .error e
      | .ok (_, r, w) => .ok (true, r, w)
    | none => .ok (false, r, w)

/-- The scheduler's action alphabet for a routine: the routine-level
check/next entry points and the task-level verbs at a task index. -/
inductive RAct where
  | check
  | next
  | remind (i : Nat)
  | pause (i : Nat)
  | unpause (i : Nat)
  | skip (i : Nat)
  | unskip (i : Nat)
  | complete (i : Nat)
  | uncomplete (i : Nat)
deriving DecidableEq, Repr

/-- The actions that preserve the single-active-task invariant (all of
the alphabet except unskip and uncomplete). -/
def RAct.safe : RAct → Bool
  | .unskip _ => false
  | .uncomplete _ => false
  | _ => true

/-- A request whose action raises is closed without commit, so its
transition is discarded. -/
def dropErr (rw : Model × World) :
    Except String (Bool × Model × World) → Model × World
  | .ok (_, r, w) => (r, w)
  | .error _ => rw

def step (a : RAct) (rw : Model × World) : Model × World :=
  match a with
  | .check => RoutineAction.check rw.1 rw.2
  | .next => dropErr rw (RoutineAction.next rw.1 rw.2)
  | .remind i => dropErr rw (TaskAction.remind i rw.1 rw.2)
  | .pause i => dropErr rw (TaskAction.pause i rw.1 rw.2)
  | .unpause i => dropErr rw (TaskAction.unpause i rw.1 rw.2)
  | .skip i => dropErr rw (TaskAction.skip i rw.1 rw.2)
  | .unskip i => dropErr rw (TaskAction.unskip i rw.1 rw.2)
  | .complete i => dropErr rw (TaskAction.complete i rw.1 rw.2)
  | .uncomplete i => dropErr rw (TaskAction.uncomplete i rw.1 rw.2)

def run (acts : List RAct) (rw : Model × World) : Model × World :=
  acts.foldl (fun s a => step a s) rw

/-- Number of tasks that are active (have `start`, lack `end`). -/
def activeCount (ts : List RTask) : Nat :=
  (ts.filter isActive).length

/-- Number of active tasks of a routine (0 when it has no task list). -/
def routineActive (r : Model) : Nat :=
  activeCount (r.data.tasks.getD [])

/-! ## Builder: payload merge and person resolution (BaseStatus.build)

The merge step of `build` operates on raw payload dictionaries before any
typed interpretation, so it is embedded over a JSON-like value type. -/

/-- A payload value: string, number, boolean, or nested object. -/
inductive Val where
  | s (v : String)
  | n (v : Nat)
  | b (v : Bool)
  | obj (kvs : List (String × Val))

/-- A payload dictionary (keys are unique, as in a Python dict). -/
def Dct : Type := List (String × Val)

/-- First-match key lookup. -/
def dlookup (k : String) : List (String × Val) → Option Val
  | [] => none
  | kv :: rest => if kv.1 = k then some kv.2 else dlookup k rest

/-- Python `a.update(b)`: keys of `a` keep their position with `b`'s value
when `b` has the key; keys only in `b` are appended in `b`'s order. -/
def dictUpdate (a b : List (String × Val)) : List (String × Val) :=
  a.map (fun kv =>
    match dlookup kv.1 b with
    | some v => (kv.1, v)
    | none => kv) ++
  b.filter (fun kv => (dlookup kv.1 a).isNone)

/-- Set one key of a dictionary (`d[k] = v`). -/
def dictSet (k : String) (v : Val) (d : List (String × Val)) : List (String × Val) :=
  if (dlookup k d).isSome then
    d.map (fun kv => if kv.1 = k then (k, v) else kv)
  else d ++ [(k, v)]

/-- The merge portion of BaseStatus.build: `fields["data"] = {}`, then
`update` with the resolved template payload when truthy, then `update`
with the caller's inline `data` when supplied. -/
def BaseStatus.mergeData (template : List (String × Val))
    (dataArg : Option (List (String × Val))) : List (String × Val) :=
  let d : List (String × Val) := []
  let d := if template.isEmpty then d else dictUpdate d template
  match dataArg with
  | some dat => dictUpdate d dat
  | none => d

/-- A stored person row. -/
structure PersonR where
  id : Nat
  name : String

/-- The builder-facing store: persons, templates by id, and the rows the
builder has created. -/
structure BW where
  persons : List PersonR := []
  templates : List (Nat × List (String × Val)) := []
  entities : List (List (String × Val) × List (String × Val)) := []
  clock : Nat → Nat := fun _ => 0
  ticks : Nat := 0
  events : List Event := []

/-- Keyword arguments of BaseStatus.build: an inline template payload, a
template id, an inline `data` payload, and scalar column kwargs. -/
structure BKwargs where
  template : Option (List (String × Val)) := none
  templateId : Option Nat := none
  dataArg : Option (List (String × Val)) := none
  cols : List (String × Val) := []

/-- The scalar-promotion loop of build: for each listed field take the
caller kwarg when present, else the merged data's value when present. -/
def promoteCols : List String → List (String × Val) → List (String × Val) →
    List (String × Val) → List (String × Val)
  | [], _, _, acc => acc
  | f :: fs, kwcols, data, acc =>
    let acc :=
      match dlookup f kwcols with
      | some v => dictSet f v acc
      | none =>
        match dlookup f data with
        | some v => dictSet f v acc
        | none => acc
    promoteCols fs kwcols data acc

/-- BaseStatus.build over raw dictionaries: resolve the template (inline
wins over id lookup; a missing template id raises), merge, resolve a
`person` name in the merged data to a person id (`.one()` raises when no
or several rows match), then promote scalar columns.  Returns the merged
payload and the column dictionary. -/
def BaseStatus.build (kw : BKwargs) (bw : BW) :
    Except String (List (String × Val) × List (String × Val)) :=
  let tplRes : Except String (List (String × Val)) :=
    match kw.template with
    | some t => .ok t
    | none =>
      match kw.templateId with
      | some i =>
        match bw.templates.find? (fun p => p.1 = i) with
        | some p => .ok p.2
        | none => .error "AttributeError: NoneType"
      | none => .ok []
  match tplRes with
  | .error e => .error e
  | .ok template =>
    let data := BaseStatus.mergeData template kw.dataArg
    let colsRes : Except String (List (String × Val)) :=
      match dlookup "person" data with
      | some (.s nm) =>
        match bw.persons.filter (fun p => p.name = nm) with
        | [p] => .ok [("person_id", .n p.id)]
        | [] => .error "NotFound"
        | _ => .error "MultipleResultsFound"
      | some _ => .error "NotFound"
      | none => .ok []
    match colsRes with
    | .error e => .error e
    | .ok cols0 =>
      let cols := promoteCols ["person_id", "name", "status", "created", "updated"]
        kw.cols data cols0
      .ok (data, cols)

/-- BaseStatus.create over raw dictionaries: build, add the row, then
notify "create" (stamping `data["notified"]` and `updated` with two
separate clock reads on the session-held row). -/
def BaseStatus.createD (kind : String) (kw : BKwargs) (bw : BW) :
    Except String ((List (String × Val) × List (String × Val)) × BW) :=
  match BaseStatus.build kw bw with
  | .error e => .error e
  | .ok f =>
    let t1 := bw.clock bw.ticks
    let t2 := bw.clock (bw.ticks + 1)
    let f := (dictSet "notified" (.n t1) f.1, dictSet "updated" (.n t2) f.2)
    let bw := { bw with ticks := bw.ticks + 2,
                        entities := bw.entities ++ [f],
                        events := bw.events ++ [⟨kind, "create"⟩] }
    .ok (f, bw)

/-- The POST handler around create: an exception yields a 500 response
and the session is closed without commit, leaving the store unchanged. -/
def StatusCL.postD (kind : String) (kw : BKwargs) (bw : BW) : BW :=
  match BaseStatus.createD kind kw bw with
  | .ok (_, bw) => bw
  | .error _ => bw

/-! ## Builder: routine task assembly (RoutineAction.build) -/

/-- Descending insertion by `created` (the `order_by(created.desc())` of
the open-ToDo query). -/
def insertDesc (t : Model) : List Model → List Model
  | [] => [t]
  | u :: us => if u.created ≤ t.created then t :: u :: us else u :: insertDesc t us

def sortDesc : List Model → List Model
  | [] => []
  | t :: ts => insertDesc t (sortDesc ts)

/-- The open ToDos of a person, ordered by creation descending. -/
def openTodosDesc (pid : Nat) (w : World) : List Model :=
  sortDesc (w.todos.filter (fun td => td.personId == pid && td.status == "opened"))

/-- One prepended task per open ToDo: `text` copied from the todo payload
(KeyError when absent), `todo` set to the todo's id. -/
def todoToTask (td : Model) : Except String RTask :=
  match td.data.text with
  | some s => .ok { text := s, todo := some td.id }
  | none => .error "KeyError: text"

def mapTodoTasks : List Model → Except String (List RTask)
  | [] => .ok []
  | td :: tds =>
    match todoToTask td with
    | .error e => .error e
    | .ok t =>
      match mapTodoTasks tds with
      | .error e => .error e
      | .ok ts => .ok (t :: ts)

/-- The `enumerate` id-assignment loop: give each task lacking an `id`
its position index. -/
def assignIdsFrom (i : Nat) : List RTask → List RTask
  | [] => []
  | t :: ts =>
    (if t.id = none then { t with id := some i } else t) :: assignIdsFrom (i + 1) ts

/-- RoutineAction.build's routine-specific extension of the generic
build: when the merged data has a truthy `todos`, place one task per open
ToDo of the resolved person ahead of any supplied tasks (reading
`fields["person_id"]` raises when the person was not resolved), then
assign positional ids to tasks lacking one. -/
def RoutineAction.buildTasks (personId : Option Nat) (data : ModelData)
    (w : World) : Except String ModelData :=
  let step1 : Except String ModelData :=
    if data.todos = some true then
      match personId with
      | none => .error "KeyError: person_id"
      | some pid =>
        match mapTodoTasks (openTodosDesc pid w) with
        | .error e => .error e
        | .ok tasks =>
          let tasks :=
            match data.tasks with
            | some ex => tasks ++ ex
            | none => tasks
          .ok { data with tasks := some tasks }
    else .ok data
  match step1 with
  | .error e => .error e
  | .ok data =>
    match data.tasks with
    | some ts => .ok { data with tasks := some (assignIdsFrom 0 ts) }
    | none => .ok data

/-! ## Helper lemmas -/

theorem listModify_nil {α : Type} (f : α → α) (i : Nat) : listModify f i [] = [] := by
  cases i <;> rfl

theorem listModify_getElem? {α : Type} (f : α → α) (i j : Nat) (ts : List α) :
    (listModify f i ts)[j]? = if i = j then (ts[j]?).map f else ts[j]? := by
  induction ts generalizing i j with
  | nil => cases i <;> simp [listModify]
  | cons t ts ih =>
    cases i with
    | zero => cases j <;> simp [listModify]
    | succ n =>
      cases j with
      | zero => simp [listModify]
      | succ m => simpa [listModify] using ih n m

theorem activeCount_cons (t : RTask) (ts : List RTask) :
    activeCount (t :: ts) = (if isActive t then 1 else 0) + activeCount ts := by
  simp only [activeCount, List.filter_cons]
  cases h : isActive t <;> simp [h, Nat.add_comm]

theorem activeCount_eq_zero_iff (ts : List RTask) :
    activeCount ts = 0 ↔ ∀ t ∈ ts, isActive t = false := by
  induction ts with
  | nil => simp [activeCount]
  | cons t ts ih =>
    rw [activeCount_cons]
    cases h : isActive t <;> simp [h, ih]

theorem activeCount_listModify_eq (f : RTask → RTask)
    (h : ∀ t, isActive (f t) = isActive t) (i : Nat) (ts : List RTask) :
    activeCount (listModify f i ts) = activeCount ts := by
  induction ts generalizing i with
  | nil => rw [listModify_nil]
  | cons t ts ih =>
    cases i with
    | zero => rw [listModify, activeCount_cons, activeCount_cons, h t]
    | succ n => rw [listModify, activeCount_cons, activeCount_cons, ih n]

theorem activeCount_listModify_le (f : RTask → RTask)
    (h : ∀ t, isActive (f t) = false) (i : Nat) (ts : List RTask) :
    activeCount (listModify f i ts) ≤ activeCount ts := by
  induction ts generalizing i with
  | nil => rw [listModify_nil]
  | cons t ts ih =>
    cases i with
    | zero =>
      rw [listModify, activeCount_cons, activeCount_cons, h t]
      simp
    | succ n =>
      rw [listModify, activeCount_cons, activeCount_cons]
      exact Nat.add_le_add_left (ih n) _

theorem activeCount_listModify_le_one (f : RTask → RTask) (i : Nat)
    (ts : List RTask) (h : activeCount ts = 0) :
    activeCount (listModify f i ts) ≤ 1 := by
  induction ts generalizing i with
  | nil => rw [listModify_nil]; simp [h]
  | cons t ts ih =>
    rw [activeCount_cons] at h
    have ht : isActive t = false := by
      cases hh : isActive t
      · rfl
      · rw [hh] at h; simp at h
    have hts : activeCount ts = 0 := by
      rw [ht] at h; simpa using h
    cases i with
    | zero =>
      rw [listModify, activeCount_cons, hts]
      cases isActive (f t) <;> simp
    | succ n =>
      rw [listModify, activeCount_cons, ht]
      simpa using ih n hts

theorem checkActiveLoop_eq_false_iff (ts : List RTask) :
    checkActiveLoop ts = false ↔ ∀ t ∈ ts, isActive t = false := by
  induction ts with
  | nil => simp [checkActiveLoop]
  | cons t ts ih =>
    rw [checkActiveLoop]
    cases h : (t.start.isSome && t.end_.isNone) <;>
      simp_all [isActive]

theorem checkFirstPendingAux_none_iff (i : Nat) (ts : List RTask) :
    checkFirstPendingAux i ts = none ↔ ∀ t ∈ ts, t.start ≠ none := by
  induction ts generalizing i with
  | nil => simp [checkFirstPendingAux]
  | cons t ts ih =>
    rw [checkFirstPendingAux]
    by_cases h : t.start = none <;> simp [h, ih]

theorem checkFirstPendingAux_first (n i : Nat) (ts : List RTask) (t : RTask)
    (hti : ts[i]? = some t) (hpend : t.start = none)
    (hbefore : ∀ j u, j < i → ts[j]? = some u → u.start ≠ none) :
    checkFirstPendingAux n ts = some (n + i) := by
  induction ts generalizing n i with
  | nil => simp at hti
  | cons a ts ih =>
    cases i with
    | zero =>
      simp only [List.getElem?_cons_zero, Option.some.injEq] at hti
      subst hti
      simp [checkFirstPendingAux, hpend]
    | succ m =>
      have ha : a.start ≠ none := by
        have := hbefore 0 a (Nat.succ_pos m) (by simp)
        exact this
      rw [checkFirstPendingAux, if_neg ha]
      have : checkFirstPendingAux (n + 1) ts = some (n + 1 + m) := by
        apply ih (n + 1) m
        · simpa using hti
        · intro j u hj hju
          exact hbefore (j + 1) u (Nat.succ_lt_succ hj) (by simpa using hju)
      rw [this]
      congr 1
      omega

theorem checkFirstPending_eq_some (i : Nat) (ts : List RTask) (t : RTask)
    (hti : ts[i]? = some t) (hpend : t.start = none)
    (hbefore : ∀ j u, j < i → ts[j]? = some u → u.start ≠ none) :
    checkFirstPending ts = some i := by
  have := checkFirstPendingAux_first 0 i ts t hti hpend hbefore
  simpa [checkFirstPending] using this

theorem routineActive_eq (r : Model) (ts : List RTask)
    (hts : r.data.tasks = some ts) : routineActive r = activeCount ts := by
  simp [routineActive, hts]

theorem routineActive_setTaskAt (r : Model) (i : Nat) (f : RTask → RTask)
    (ts : List RTask) (hts : r.data.tasks = some ts) :
    routineActive (setTaskAt r i f) = activeCount (listModify f i ts) := by
  simp [routineActive, setTaskAt, hts]

theorem routineActive_notifyAt (a : String) (i : Nat) (r : Model) (w : World) :
    routineActive (TaskAction.notifyAt a i r w).1 = routineActive r := by
  unfold TaskAction.notifyAt tick
  cases hts : r.data.tasks with
  | none => simp [routineActive, setTaskAt, hts]
  | some ts =>
    simp only [routineActive, setTaskAt, hts, Option.map_some', Option.getD_some]
    apply activeCount_listModify_eq
    intro t
    rfl

theorem complete_tasks_eq (r : Model) (w : World) :
    (RoutineAction.complete r w).2.1.data.tasks = r.data.tasks := by
  unfold RoutineAction.complete BaseAction.complete BaseStatus.notify tick
  split <;> rfl

theorem check_routineActive_le (r : Model) (w : World)
    (hinv : routineActive r ≤ 1) :
    routineActive (RoutineAction.check r w).1 ≤ 1 := by
  unfold RoutineAction.check
  cases hts : r.data.tasks with
  | none => simpa using hinv
  | some ts =>
    simp only
    cases hact : checkActiveLoop ts with
    | true => simpa using hinv
    | false =>
      have hzero : activeCount ts = 0 := by
        rw [activeCount_eq_zero_iff]
        exact (checkActiveLoop_eq_false_iff ts).mp hact
      simp only [Bool.false_eq_true, if_false]
      cases hfp : checkFirstPending ts with
      | some i =>
        simp only
        rw [routineActive_notifyAt,
          routineActive_setTaskAt r i _ ts hts]
        exact activeCount_listModify_le_one _ i ts hzero
      | none =>
        simp only [routineActive, complete_tasks_eq, hts]
        simpa [routineActive_eq r ts hts] using hinv

theorem taskLookup_ok (i : Nat) (r : Model) (t : RTask)
    (h : taskLookup i r = .ok t) :
    ∃ ts, r.data.tasks = some ts ∧ ts[i]? = some t := by
  unfold taskLookup at h
  split at h
  · simp at h
  · rename_i ts hts
    split at h
    · simp at h
    · rename_i u hti
      injection h with h'
      exact ⟨ts, hts, by rw [hti, h']⟩

theorem setTaskAt_tasks (r : Model) (i : Nat) (f : RTask → RTask)
    (ts : List RTask) (hts : r.data.tasks = some ts) :
    (setTaskAt r i f).data.tasks = some (listModify f i ts) := by
  simp [setTaskAt, hts]

theorem stepRemind_le (i : Nat) (r : Model) (w : World)
    (hinv : routineActive r ≤ 1) :
    routineActive (dropErr (r, w) (TaskAction.remind i r w)).1 ≤ 1 := by
  unfold TaskAction.remind
  cases hl : taskLookup i r with
  | error e => simpa [dropErr] using hinv
  | ok t =>
    simp only [dropErr]
    rw [routineActive_notifyAt]
    exact hinv

theorem stepPause_le (i : Nat) (r : Model) (w : World)
    (hinv : routineActive r ≤ 1) :
    routineActive (dropErr (r, w) (TaskAction.pause i r w)).1 ≤ 1 := by
  unfold TaskAction.pause
  cases hl : taskLookup i r with
  | error e => simpa [dropErr] using hinv
  | ok t =>
    obtain ⟨ts, hts, hti⟩ := taskLookup_ok i r t hl
    dsimp only
    split
    · simp only [dropErr]
      rw [routineActive_notifyAt, routineActive_setTaskAt r i _ ts hts]
      have h2 : activeCount ts ≤ 1 := by
        rw [← routineActive_eq r ts hts]
        exact hinv
      exact le_trans (le_of_eq (by apply activeCount_listModify_eq; intro u; rfl)) h2
    · simpa [dropErr] using hinv

theorem stepUnpause_le (i : Nat) (r : Model) (w : World)
    (hinv : routineActive r ≤ 1) :
    routineActive (dropErr (r, w) (TaskAction.unpause i r w)).1 ≤ 1 := by
  unfold TaskAction.unpause
  cases hl : taskLookup i r with
  | error e => simpa [dropErr] using hinv
  | ok t =>
    obtain ⟨ts, hts, hti⟩ := taskLookup_ok i r t hl
    dsimp only
    split
    · simp only [dropErr]
      rw [routineActive_notifyAt, routineActive_setTaskAt r i _ ts hts]
      have h2 : activeCount ts ≤ 1 := by
        rw [← routineActive_eq r ts hts]
        exact hinv
      exact le_trans (le_of_eq (by apply activeCount_listModify_eq; intro u; rfl)) h2
    · simpa [dropErr] using hinv

theorem stepSkip_le (i : Nat) (r : Model) (w : World)
    (hinv : routineActive r ≤ 1) :
    routineActive (dropErr (r, w) (TaskAction.skip i r w)).1 ≤ 1 := by
  unfold TaskAction.skip
  cases hl : taskLookup i r with
  | error e => simpa [dropErr] using hinv
  | ok t =>
    obtain ⟨ts, hts, hti⟩ := taskLookup_ok i r t hl
    dsimp only
    split
    · simp only [dropErr]
      apply check_routineActive_le
      rw [routineActive_notifyAt]
      have h1 : (setTaskAt r i (fun u => { u with skipped := some true })).data.tasks
          = some (listModify (fun u => { u with skipped := some true }) i ts) :=
        setTaskAt_tasks r i _ ts hts
      rw [routineActive_setTaskAt _ i _ _ h1]
      calc activeCount (listModify _ i (listModify (fun u => { u with skipped := some true }) i ts))
          ≤ activeCount (listModify (fun u => { u with skipped := some true }) i ts) := by
            apply activeCount_listModify_le
            intro u
            simp [isActive]
        _ = activeCount ts := by apply activeCount_listModify_eq; intro u; rfl
        _ ≤ 1 := by rw [← routineActive_eq r ts hts]; exact hinv
    · simpa [dropErr] using hinv

theorem stepComplete_le (i : Nat) (r : Model) (w : World)
    (hinv : routineActive r ≤ 1) :
    routineActive (dropErr (r, w) (TaskAction.complete i r w)).1 ≤ 1 := by
  unfold TaskAction.complete
  cases hl : taskLookup i r with
  | error e => simpa [dropErr] using hinv
  | ok t =>
    obtain ⟨ts, hts, hti⟩ := taskLookup_ok i r t hl
    dsimp only
    split
    · have hle : routineActive (RoutineAction.check
          (TaskAction.notifyAt "complete" i
            (setTaskAt r i (fun u =>
              { u with end_ := some (tick w).1,
                       start := if u.start = none then some (tick w).1 else u.start }))
            (tick w).2).1
          (TaskAction.notifyAt "complete" i
            (setTaskAt r i (fun u =>
              { u with end_ := some (tick w).1,
                       start := if u.start = none then some (tick w).1 else u.start }))
            (tick w).2).2).1 ≤ 1 := by
        apply check_routineActive_le
        rw [routineActive_notifyAt, routineActive_setTaskAt r i _ ts hts]
        calc activeCount (listModify _ i ts)
            ≤ activeCount ts := by
              apply activeCount_listModify_le
              intro u
              simp [isActive]
          _ ≤ 1 := by rw [← routineActive_eq r ts hts]; exact hinv
      cases htd : t.todo with
      | none => simpa [dropErr] using hle
      | some tid =>
        cases hcb : ToDoAction.completeById tid
            (RoutineAction.check
              (TaskAction.notifyAt "complete" i
                (setTaskAt r i (fun u =>
                  { u with end_ := some (tick w).1,
                           start := if u.start = none then some (tick w).1 else u.start }))
                (tick w).2).1
              (TaskAction.notifyAt "complete" i
                (setTaskAt r i (fun u =>
                  { u with end_ := some (tick w).1,
                           start := if u.start = none then some (tick w).1 else u.start }))
                (tick w).2).2).2 with
        | error e => simp only [htd, hcb, dropErr]; exact hinv
        | ok w3 => simp only [htd, hcb, dropErr]; exact hle
    · simpa [dropErr] using hinv

theorem stepNext_le (r : Model) (w : World)
    (hinv : routineActive r ≤ 1) :
    routineActive (dropErr (r, w) (RoutineAction.next r w)).1 ≤ 1 := by
  unfold RoutineAction.next
  cases hts : r.data.tasks with
  | none => simpa [dropErr] using hinv
  | some ts =>
    simp only
    cases hfa : firstActiveAux 0 ts with
    | none => simpa [dropErr] using hinv
    | some i =>
      simp only
      cases hc : TaskAction.complete i r w with
      | error e => simpa [dropErr] using hinv
      | ok x =>
        have := stepComplete_le i r w hinv
        rw [hc] at this
        simpa [dropErr] using this

theorem step_le (a : RAct) (r : Model) (w : World) (hsafe : a.safe = true)
    (hinv : routineActive r ≤ 1) : routineActive (step a (r, w)).1 ≤ 1 := by
  cases a with
  | check => exact check_routineActive_le r w hinv
  | next => exact stepNext_le r w hinv
  | remind i => exact stepRemind_le i r w hinv
  | pause i => exact stepPause_le i r w hinv
  | unpause i => exact stepUnpause_le i r w hinv
  | skip i => exact stepSkip_le i r w hinv
  | unskip i => simp [RAct.safe] at hsafe
  | complete i => exact stepComplete_le i r w hinv
  | uncomplete i => simp [RAct.safe] at hsafe

theorem run_le (acts : List RAct) (rw : Model × World)
    (hsafe : ∀ a ∈ acts, a.safe = true) (hinv : routineActive rw.1 ≤ 1) :
    routineActive (run acts rw).1 ≤ 1 := by
  induction acts generalizing rw with
  | nil => exact hinv
  | cons a acts ih =>
    have h1 : routineActive (step a rw).1 ≤ 1 := by
      obtain ⟨r, w⟩ := rw
      exact step_le a r w (hsafe a (by simp)) hinv
    exact ih (step a rw) (fun b hb => hsafe b (by simp [hb])) h1

theorem exists_getElem?_of_mem {α : Type} (l : List α) (a : α) (h : a ∈ l) :
    ∃ j : Nat, l[j]? = some a := by
  induction l with
  | nil => cases h
  | cons b l ih =>
    cases h with
    | head => exact ⟨0, by simp⟩
    | tail _ h' =>
      obtain ⟨j, hj⟩ := ih h'
      exact ⟨j + 1, by simpa using hj⟩

theorem routineComplete_props (r : Model) (w : World) :
    (RoutineAction.complete r w).2.1.status = "closed" ∧
    (RoutineAction.complete r w).2.1.data.end_.isSome = true ∧
    (RoutineAction.complete r w).2.1.data.tasks = r.data.tasks := by
  unfold RoutineAction.complete BaseAction.complete BaseStatus.notify tick
  split
  · exact ⟨rfl, rfl, rfl⟩
  · rename_i hguard
    push_neg at hguard
    obtain ⟨h1, h2⟩ := hguard
    refine ⟨h2, ?_, rfl⟩
    rw [← Option.ne_none_iff_isSome]
    exact h1

theorem check_all_done (r : Model) (w : World) (ts : List RTask)
    (hts : r.data.tasks = some ts)
    (hall : ∀ t ∈ ts, t.start.isSome = true ∧ t.end_.isSome = true) :
    RoutineAction.check r w = (RoutineAction.complete r w).2 := by
  unfold RoutineAction.check
  rw [hts]
  dsimp only
  have hloop : checkActiveLoop ts = false := by
    rw [checkActiveLoop_eq_false_iff]
    intro t htmem
    have he := (hall t htmem).2
    cases hu : t.end_ with
    | none => rw [hu] at he; simp at he
    | some v => simp [isActive, hu]
  rw [hloop]
  simp only [Bool.false_eq_true, if_false]
  have hfp : checkFirstPending ts = none := by
    rw [checkFirstPending, checkFirstPendingAux_none_iff]
    intro t htmem
    have hs := (hall t htmem).1
    cases hu : t.start with
    | none => rw [hu] at hs; simp at hs
    | some v => simp
  rw [hfp]

theorem check_closes_all_done (rB : Model) (wB : World) (ts2 : List RTask)
    (hB : rB.data.tasks = some ts2)
    (hdone : ∀ u ∈ ts2, u.start.isSome = true ∧ u.end_.isSome = true) :
    (RoutineAction.check rB wB).1.status = "closed" ∧
    (RoutineAction.check rB wB).1.data.end_.isSome = true ∧
    (RoutineAction.check rB wB).1.data.tasks = some ts2 := by
  rw [check_all_done rB wB ts2 hB hdone]
  have hp := routineComplete_props rB wB
  exact ⟨hp.1, hp.2.1, by rw [hp.2.2, hB]⟩

theorem notifyAt_tasks (a : String) (i : Nat) (r : Model) (w : World)
    (ts : List RTask) (hts : r.data.tasks = some ts) :
    ∃ g : RTask → RTask, (∀ u, g u = { u with notified := (g u).notified }) ∧
      (TaskAction.notifyAt a i r w).1.data.tasks = some (listModify g i ts) := by
  refine ⟨fun u => { u with notified := some ((tick (tick (tick w).2).2).1) },
    fun u => rfl, ?_⟩
  simp [TaskAction.notifyAt, setTaskAt, hts]

theorem routineUncomplete_ok (r : Model) (w : World) (b : Bool) (r1 : Model)
    (w1 : World) (h : RoutineAction.uncomplete r w = .ok (b, r1, w1))
    (hre : r.data.end_.isSome = true) :
    b = true ∧ r1.data.end_ = none ∧ r1.status = "opened" ∧
      r1.data.tasks = r.data.tasks := by
  unfold RoutineAction.uncomplete BaseAction.uncomplete BaseStatus.notify tick at h
  have hc : (r.data.end_.isSome = true ∨ r.status = "closed") := Or.inl hre
  rw [if_pos hc] at h
  cases he : r.data.end_ with
  | none => rw [he] at hre; simp at hre
  | some t0 =>
    rw [he] at h
    injection h with h1
    injection h1 with h1 h2
    injection h2 with h2 h3
    subst h2; subst h3
    exact ⟨h1.symm, rfl, rfl, rfl⟩

theorem c4_uncomplete_part (r1 : Model) (w1 : World) (ts1 : List RTask)
    (i : Nat) (hts1 : r1.data.tasks = some ts1)
    (hiend : ∀ v, ts1[i]? = some v → v.end_.isSome = true)
    (hne : ts1[i]? ≠ none) (hre : r1.data.end_.isSome = true) :
    ∀ b2 r2 w2, TaskAction.uncomplete i r1 w1 = .ok (b2, r2, w2) →
      b2 = true ∧ r2.data.end_ = none ∧ r2.status = "opened" := by
  intro b2 r2 w2 h
  obtain ⟨u, hti1⟩ : ∃ u, ts1[i]? = some u := by
    cases hcase : ts1[i]? with
    | none => exact absurd hcase hne
    | some u => exact ⟨u, rfl⟩
  have hue : u.end_.isSome = true := hiend u hti1
  unfold TaskAction.uncomplete at h
  have hl : taskLookup i r1 = .ok u := by simp [taskLookup, hts1, hti1]
  rw [hl] at h
  dsimp only at h
  rw [if_pos hue] at h
  split at h
  · simp at h
  · rename_i b3 r3 w3 heq
    have hrprops := routineUncomplete_ok _ _ _ _ _ heq hre
    split at h
    · split at h
      · simp at h
      · rename_i w4 heq2
        injection h with h1
        injection h1 with h1 h2
        injection h2 with h2 h3
        subst h2; subst h3
        exact ⟨h1.symm, hrprops.2.1, hrprops.2.2.1⟩
    · injection h with h1
      injection h1 with h1 h2
      injection h2 with h2 h3
      subst h2; subst h3
      exact ⟨h1.symm, hrprops.2.1, hrprops.2.2.1⟩

/-! ## Claim theorems -/

/-- **C1.** RoutineAction.check: with no task list it returns without
effect; with some task active (has `start`, lacks `end`) it does nothing;
otherwise it sets `start` = now on the first task lacking `start`, firing
a task-level "pause" notification when that task has `paused` = true and
a "start" notification otherwise, and stops at that task; and when every
task already has `start` and `end` it invokes routine-level complete. -/
theorem c1_check_correct (r : Model) (w : World) :
    (r.data.tasks = none → RoutineAction.check r w = (r, w)) ∧
    (∀ ts, r.data.tasks = some ts → (∃ t ∈ ts, isActive t = true) →
      RoutineAction.check r w = (r, w)) ∧
    (∀ ts i t, r.data.tasks = some ts → (∀ u ∈ ts, isActive u = false) →
      ts[i]? = some t → t.start = none →
      (∀ j u, j < i → ts[j]? = some u → u.start ≠ none) →
      RoutineAction.check r w =
        TaskAction.notifyAt (if t.paused = some true then "pause" else "start") i
          (setTaskAt r i (fun u => { u with start := some (w.clock w.ticks) }))
          { w with ticks := w.ticks + 1 }) ∧
    (∀ ts, r.data.tasks = some ts →
      (∀ t ∈ ts, t.start.isSome = true ∧ t.end_.isSome = true) →
      RoutineAction.check r w = (RoutineAction.complete r w).2) := by
  refine ⟨?_, ?_, ?_, ?_⟩
  · intro h
    unfold RoutineAction.check
    rw [h]
  · intro ts hts hex
    unfold RoutineAction.check
    rw [hts]
    dsimp only
    cases hact : checkActiveLoop ts with
    | true => simp
    | false =>
      exfalso
      obtain ⟨t, htmem, hact'⟩ := hex
      have hfalse := (checkActiveLoop_eq_false_iff ts).mp hact t htmem
      rw [hfalse] at hact'
      exact Bool.false_ne_true hact'
  · intro ts i t hts hall hti hpend hbefore
    unfold RoutineAction.check
    rw [hts]
    dsimp only
    have hloop : checkActiveLoop ts = false :=
      (checkActiveLoop_eq_false_iff ts).mpr hall
    rw [hloop]
    simp only [Bool.false_eq_true, if_false]
    rw [checkFirstPending_eq_some i ts t hti hpend hbefore]
    dsimp only
    rw [hti]
    rfl
  · intro ts hts hall
    unfold RoutineAction.check
    rw [hts]
    dsimp only
    have hloop : checkActiveLoop ts = false := by
      rw [checkActiveLoop_eq_false_iff]
      intro t htmem
      have he := (hall t htmem).2
      cases hu : t.end_ with
      | none => rw [hu] at he; simp at he
      | some v => simp [isActive, hu]
    rw [hloop]
    simp only [Bool.false_eq_true, if_false]
    have hfp : checkFirstPending ts = none := by
      rw [checkFirstPending, checkFirstPendingAux_none_iff]
      intro t htmem
      have hs := (hall t htmem).1
      cases hu : t.start with
      | none => rw [hu] at hs; simp at hs
      | some v => simp
    rw [hfp]

/-- Witness for C1: on a routine with the single pending task `{}`, check
starts that task at the current clock value and fires a "start"
notification. -/
theorem c1_check_correct_witness :
    RoutineAction.check
        { status := "opened", data := { tasks := some [{}] } }
        { clock := fun k => k } =
      TaskAction.notifyAt "start" 0
        (setTaskAt { status := "opened", data := { tasks := some [{}] } } 0
          (fun u => { u with start := some 0 }))
        { clock := fun k => k, ticks := 1 } := by
  have h := (c1_check_correct
    { status := "opened", data := { tasks := some [{}] } }
    { clock := fun k => k }).2.2.1
  exact h [{}] 0 {} rfl (by decide) rfl rfl
    (fun j u hj _ => absurd hj (Nat.not_lt_zero j))

/-- **C2 (counterexample).** Starting from a freshly built routine with
two pending tasks, the call sequence check; complete task 0; uncomplete
task 0 leaves BOTH tasks with `start` set and `end` unset, so "at most
one embedded task has `start` set and `end` unset after any sequence of
check/next/task-action calls" is false as stated. -/
theorem c2_counterexample :
    ¬ (routineActive (run [.check, .complete 0, .uncomplete 0]
        ({ status := "opened", data := { tasks := some [{}, {}] } },
         { clock := fun k => k })).1 ≤ 1) := by
  decide

/-- **C2 (amended).** The single-active-task invariant is preserved by
check, next, and the task-level remind/pause/unpause/skip/complete
actions; task-level uncomplete and unskip are excluded, because they
clear a task's `end` without checking whether another task is active
(see the counterexample). -/
theorem c2_single_active_preserved (acts : List RAct) (r : Model) (w : World)
    (hsafe : ∀ a ∈ acts, a.safe = true) (hinv : routineActive r ≤ 1) :
    routineActive (run acts (r, w)).1 ≤ 1 :=
  run_le acts (r, w) hsafe hinv

/-- Witness for the amended C2: a concrete safe sequence keeps the
invariant. -/
theorem c2_single_active_preserved_witness :
    routineActive (run [.check, .complete 0, .skip 1]
      ({ status := "opened", data := { tasks := some [{}, {}] } },
       { clock := fun k => k })).1 ≤ 1 :=
  c2_single_active_preserved [.check, .complete 0, .skip 1]
    { status := "opened", data := { tasks := some [{}, {}] } }
    { clock := fun k => k } (by decide) (by decide)

/-- **C3 (counterexample).** The claim quantifies over every entity: on
an entity that is already paused, calling pause twice returns false then
false, not true then false. -/
theorem c3_counterexample :
    (BaseAction.pause "todo"
      { status := "opened", data := { paused := some true } }
      { clock := fun k => k }).1 = false ∧
    (BaseAction.pause "todo"
      (BaseAction.pause "todo"
        { status := "opened", data := { paused := some true } }
        { clock := fun k => k }).2.1
      (BaseAction.pause "todo"
        { status := "opened", data := { paused := some true } }
        { clock := fun k => k }).2.2).1 = false := by
  decide

/-- **C3 (amended).** For every guarded action and every entity: when the
first call reports a change (returns true without raising), an
immediately repeated call returns false and leaves the entity, the store
and the published-event list exactly unchanged (so it performs no state
mutation and produces no notification).  When the entity is already in
the target sub-state the first call already returns false. -/
theorem c3_second_call_noop (kind : String) (m : Model) (w : World) :
    (∀ m1 w1, BaseAction.pause kind m w = (true, m1, w1) →
      BaseAction.pause kind m1 w1 = (false, m1, w1)) ∧
    (∀ m1 w1, BaseAction.unpause kind m w = (true, m1, w1) →
      BaseAction.unpause kind m1 w1 = (false, m1, w1)) ∧
    (∀ m1 w1, BaseAction.skip kind m w = (true, m1, w1) →
      BaseAction.skip kind m1 w1 = (false, m1, w1)) ∧
    (∀ m1 w1, BaseAction.unskip kind m w = .ok (true, m1, w1) →
      BaseAction.unskip kind m1 w1 = .ok (false, m1, w1)) ∧
    (∀ m1 w1, BaseAction.complete kind m w = (true, m1, w1) →
      BaseAction.complete kind m1 w1 = (false, m1, w1)) ∧
    (∀ m1 w1, BaseAction.uncomplete kind m w = .ok (true, m1, w1) →
      BaseAction.uncomplete kind m1 w1 = .ok (false, m1, w1)) ∧
    (∀ m1 w1, BaseAction.expire kind m w = (true, m1, w1) →
      BaseAction.expire kind m1 w1 = (false, m1, w1)) ∧
    (∀ m1 w1, BaseAction.unexpire kind m w = .ok (true, m1, w1) →
      BaseAction.unexpire kind m1 w1 = .ok (false, m1, w1)) ∧
    (∀ m1 w1, BaseValue.right kind m w = (true, m1, w1) →
      BaseValue.right kind m1 w1 = (false, m1, w1)) ∧
    (∀ m1 w1, BaseValue.wrong kind m w = (true, m1, w1) →
      BaseValue.wrong kind m1 w1 = (false, m1, w1)) ∧
    (∀ m1 w1, ToDoAction.complete m w = .ok (true, m1, w1) →
      ToDoAction.complete m1 w1 = .ok (false, m1, w1)) ∧
    (∀ m1 w1, AreaValue.wrong m w = (true, m1, w1) →
      AreaValue.wrong m1 w1 = (false, m1, w1)) := by
  refine ⟨?_, ?_, ?_, ?_, ?_, ?_, ?_, ?_, ?_, ?_, ?_, ?_⟩
  · intro m1 w1 h
    unfold BaseAction.pause at h
    split at h
    · simp only [BaseStatus.notify, tick] at h
      injection h with h1 h2
      injection h2 with h2 h3
      subst h2; subst h3
      simp [BaseAction.pause]
    · simp at h
  · intro m1 w1 h
    unfold BaseAction.unpause at h
    split at h
    · simp only [BaseStatus.notify, tick] at h
      injection h with h1 h2
      injection h2 with h2 h3
      subst h2; subst h3
      simp [BaseAction.unpause]
    · simp at h
  · intro m1 w1 h
    unfold BaseAction.skip at h
    split at h
    · simp only [BaseStatus.notify, tick] at h
      injection h with h1 h2
      injection h2 with h2 h3
      subst h2; subst h3
      simp [BaseAction.skip]
    · simp at h
  · intro m1 w1 h
    unfold BaseAction.unskip at h
    split at h
    · dsimp only at h
      split at h
      · simp at h
      · simp only [BaseStatus.notify, tick] at h
        injection h with h1
        injection h1 with h1 h2
        injection h2 with h2 h3
        subst h2; subst h3
        simp [BaseAction.unskip]
    · simp at h
  · intro m1 w1 h
    unfold BaseAction.complete at h
    split at h
    · simp only [BaseStatus.notify, tick] at h
      injection h with h1 h2
      injection h2 with h2 h3
      subst h2; subst h3
      simp [BaseAction.complete]
    · simp at h
  · intro m1 w1 h
    unfold BaseAction.uncomplete at h
    split at h
    · split at h
      · simp at h
      · simp only [BaseStatus.notify, tick] at h
        injection h with h1
        injection h1 with h1 h2
        injection h2 with h2 h3
        subst h2; subst h3
        simp [BaseAction.uncomplete]
    · simp at h
  · intro m1 w1 h
    unfold BaseAction.expire at h
    split at h
    · simp only [BaseStatus.notify, tick] at h
      injection h with h1 h2
      injection h2 with h2 h3
      subst h2; subst h3
      simp [BaseAction.expire]
    · simp at h
  · intro m1 w1 h
    unfold BaseAction.unexpire at h
    split at h
    · dsimp only at h
      split at h
      · simp at h
      · simp only [BaseStatus.notify, tick] at h
        injection h with h1
        injection h1 with h1 h2
        injection h2 with h2 h3
        subst h2; subst h3
        simp [BaseAction.unexpire]
    · simp at h
  · intro m1 w1 h
    unfold BaseValue.right at h
    split at h
    · simp only [BaseStatus.notify, tick] at h
      injection h with h1 h2
      injection h2 with h2 h3
      subst h2; subst h3
      simp [BaseValue.right]
    · simp at h
  · intro m1 w1 h
    unfold BaseValue.wrong at h
    split at h
    · simp only [BaseStatus.notify, tick] at h
      injection h with h1 h2
      injection h2 with h2 h3
      subst h2; subst h3
      simp [BaseValue.wrong]
    · simp at h
  · intro m1 w1 h
    unfold ToDoAction.complete at h
    split at h
    · simp only [BaseStatus.notify, tick] at h
      split at h
      · split at h
        · simp at h
        · split at h
          · injection h with h1
            injection h1 with h1 h2
            injection h2 with h2 h3
            subst h2; subst h3
            simp [ToDoAction.complete]
          · injection h with h1
            injection h1 with h1 h2
            injection h2 with h2 h3
            subst h2; subst h3
            simp [ToDoAction.complete]
      · split at h
        · injection h with h1
          injection h1 with h1 h2
          injection h2 with h2 h3
          subst h2; subst h3
          simp [ToDoAction.complete]
        · injection h with h1
          injection h1 with h1 h2
          injection h2 with h2 h3
          subst h2; subst h3
          simp [ToDoAction.complete]
    · simp at h
  · intro m1 w1 h
    unfold AreaValue.wrong at h
    split at h
    · simp only [BaseStatus.notify, tick] at h
      split at h
      · injection h with h1 h2
        injection h2 with h2 h3
        subst h2; subst h3
        simp [AreaValue.wrong]
      · injection h with h1 h2
        injection h2 with h2 h3
        subst h2; subst h3
        simp [AreaValue.wrong]
    · simp at h

/-- Witness for the amended C3: completing a fresh ToDo succeeds, and the
immediately repeated complete returns false with nothing changed. -/
theorem c3_second_call_noop_witness :
    BaseAction.complete "todo"
        (BaseAction.complete "todo" { status := "opened" } { clock := fun k => k }).2.1
        (BaseAction.complete "todo" { status := "opened" } { clock := fun k => k }).2.2 =
      (false,
        (BaseAction.complete "todo" { status := "opened" } { clock := fun k => k }).2.1,
        (BaseAction.complete "todo" { status := "opened" } { clock := fun k => k }).2.2) :=
  (c3_second_call_noop "todo" { status := "opened" } { clock := fun k => k }).2.2.2.2.1
    _ _ rfl

/-- **C4.** When task `i` is the last remaining pending/active task of a
routine (it lacks `end`; every other task has both `start` and `end`),
TaskAction.complete on it — and TaskAction.skip, when it is not already
skipped — succeeds and leaves the routine with terminal status "closed"
and payload `end` set; subsequently uncompleting that task clears the
routine's `end` and returns the routine to active status "opened". -/
theorem c4_last_task_rollup (r : Model) (w : World) (ts : List RTask)
    (i : Nat) (t : RTask) (hts : r.data.tasks = some ts)
    (hti : ts[i]? = some t) (hend : t.end_ = none)
    (hothers : ∀ j u, j ≠ i → ts[j]? = some u →
      u.start.isSome = true ∧ u.end_.isSome = true) :
    (∀ b r1 w1, TaskAction.complete i r w = .ok (b, r1, w1) →
      b = true ∧ r1.status = "closed" ∧ r1.data.end_.isSome = true ∧
      ∀ b2 r2 w2, TaskAction.uncomplete i r1 w1 = .ok (b2, r2, w2) →
        b2 = true ∧ r2.data.end_ = none ∧ r2.status = "opened") ∧
    (t.skipped ≠ some true →
      ∀ b r1 w1, TaskAction.skip i r w = .ok (b, r1, w1) →
      b = true ∧ r1.status = "closed" ∧ r1.data.end_.isSome = true ∧
      ∀ b2 r2 w2, TaskAction.uncomplete i r1 w1 = .ok (b2, r2, w2) →
        b2 = true ∧ r2.data.end_ = none ∧ r2.status = "opened") := by
  have hl : taskLookup i r = .ok t := by simp [taskLookup, hts, hti]
  constructor
  · intro b r1 w1 h
    unfold TaskAction.complete at h
    rw [hl] at h
    dsimp only at h
    rw [if_pos hend] at h
    have hBtasks := setTaskAt_tasks r i (fun u =>
      { u with end_ := some (tick w).1,
               start := if u.start = none then some (tick w).1 else u.start }) ts hts
    obtain ⟨g, hg, hB⟩ := notifyAt_tasks "complete" i _ (tick w).2 _ hBtasks
    have hgs : ∀ u, (g u).start = u.start := fun u => by rw [hg u]
    have hge : ∀ u, (g u).end_ = u.end_ := fun u => by rw [hg u]
    have hdone : ∀ u ∈ listModify g i (listModify (fun u =>
        { u with end_ := some (tick w).1,
                 start := if u.start = none then some (tick w).1 else u.start }) i ts),
        u.start.isSome = true ∧ u.end_.isSome = true := by
      intro u hu
      obtain ⟨j, hj⟩ := exists_getElem?_of_mem _ _ hu
      rw [listModify_getElem?] at hj
      by_cases hij : i = j
      · rw [if_pos hij, listModify_getElem?, if_pos hij, ← hij, hti] at hj
        simp only [Option.map_some'] at hj
        injection hj with hj
        subst hj
        refine ⟨?_, ?_⟩
        · rw [hgs]
          cases hstart : t.start <;> simp [hstart]
        · rw [hge]
          rfl
      · rw [if_neg hij, listModify_getElem?, if_neg hij] at hj
        exact hothers j u (fun hji => hij hji.symm) hj
    have hcheck := check_closes_all_done _
      (TaskAction.notifyAt "complete" i
        (setTaskAt r i (fun u =>
          { u with end_ := some (tick w).1,
                   start := if u.start = none then some (tick w).1 else u.start }))
        (tick w).2).2 _ hB hdone
    have hiend : ∀ v, (listModify g i (listModify (fun u =>
        { u with end_ := some (tick w).1,
                 start := if u.start = none then some (tick w).1 else u.start }) i ts))[i]?
        = some v → v.end_.isSome = true := by
      intro v hv
      rw [listModify_getElem?, if_pos rfl, listModify_getElem?, if_pos rfl, hti] at hv
      simp only [Option.map_some'] at hv
      injection hv with hv
      rw [← hv, hge]
      rfl
    have hne : (listModify g i (listModify (fun u =>
        { u with end_ := some (tick w).1,
                 start := if u.start = none then some (tick w).1 else u.start }) i ts))[i]?
        ≠ none := by
      rw [listModify_getElem?, if_pos rfl, listModify_getElem?, if_pos rfl, hti]
      simp
    cases htd : t.todo with
    | none =>
      rw [htd] at h
      injection h with h1
      injection h1 with h1 h2
      injection h2 with h2 h3
      subst h2; subst h3
      exact ⟨h1.symm, hcheck.1, hcheck.2.1,
        c4_uncomplete_part _ _ _ i hcheck.2.2 hiend hne hcheck.2.1⟩
    | some tid =>
      rw [htd] at h
      dsimp only at h
      split at h
      · simp at h
      · rename_i w4 heq2
        injection h with h1
        injection h1 with h1 h2
        injection h2 with h2 h3
        subst h2; subst h3
        exact ⟨h1.symm, hcheck.1, hcheck.2.1,
          c4_uncomplete_part _ _ _ i hcheck.2.2 hiend hne hcheck.2.1⟩
  · intro hskip b r1 w1 h
    unfold TaskAction.skip at h
    rw [hl] at h
    dsimp only at h
    rw [if_pos hskip] at h
    have hA := setTaskAt_tasks r i (fun u => { u with skipped := some true }) ts hts
    have hBtasks := setTaskAt_tasks (setTaskAt r i (fun u => { u with skipped := some true }))
      i (fun u =>
        { u with end_ := some (tick w).1,
                 start := if u.start = none then some (tick w).1 else u.start }) _ hA
    obtain ⟨g, hg, hB⟩ := notifyAt_tasks "skip" i _ (tick w).2 _ hBtasks
    have hgs : ∀ u, (g u).start = u.start := fun u => by rw [hg u]
    have hge : ∀ u, (g u).end_ = u.end_ := fun u => by rw [hg u]
    have hdone : ∀ u ∈ listModify g i (listModify (fun u =>
        { u with end_ := some (tick w).1,
                 start := if u.start = none then some (tick w).1 else u.start }) i
        (listModify (fun u => { u with skipped := some true }) i ts)),
        u.start.isSome = true ∧ u.end_.isSome = true := by
      intro u hu
      obtain ⟨j, hj⟩ := exists_getElem?_of_mem _ _ hu
      rw [listModify_getElem?] at hj
      by_cases hij : i = j
      · rw [if_pos hij, listModify_getElem?, if_pos hij,
          listModify_getElem?, if_pos hij, ← hij, hti] at hj
        simp only [Option.map_some'] at hj
        injection hj with hj
        subst hj
        refine ⟨?_, ?_⟩
        · rw [hgs]
          cases hstart : t.start <;> simp [hstart]
        · rw [hge]
          rfl
      · rw [if_neg hij, listModify_getElem?, if_neg hij,
          listModify_getElem?, if_neg hij] at hj
        exact hothers j u (fun hji => hij hji.symm) hj
    have hcheck := check_closes_all_done _
      (TaskAction.notifyAt "skip" i
        (setTaskAt (setTaskAt r i (fun u => { u with skipped := some true })) i (fun u =>
          { u with end_ := some (tick w).1,
                   start := if u.start = none then some (tick w).1 else u.start }))
        (tick w).2).2 _ hB hdone
    have hiend : ∀ v, (listModify g i (listModify (fun u =>
        { u with end_ := some (tick w).1,
                 start := if u.start = none then some (tick w).1 else u.start }) i
        (listModify (fun u => { u with skipped := some true }) i ts)))[i]?
        = some v → v.end_.isSome = true := by
      intro v hv
      rw [listModify_getElem?, if_pos rfl, listModify_getElem?, if_pos rfl,
        listModify_getElem?, if_pos rfl, hti] at hv
      simp only [Option.map_some'] at hv
      injection hv with hv
      rw [← hv, hge]
      rfl
    have hne : (listModify g i (listModify (fun u =>
        { u with end_ := some (tick w).1,
                 start := if u.start = none then some (tick w).1 else u.start }) i
        (listModify (fun u => { u with skipped := some true }) i ts)))[i]?
        ≠ none := by
      rw [listModify_getElem?, if_pos rfl, listModify_getElem?, if_pos rfl,
        listModify_getElem?, if_pos rfl, hti]
      simp
    injection h with h1
    injection h1 with h1 h2
    injection h2 with h2 h3
    subst h2; subst h3
    exact ⟨h1.symm, hcheck.1, hcheck.2.1,
      c4_uncomplete_part _ _ _ i hcheck.2.2 hiend hne hcheck.2.1⟩

/-- Witness for C4: completing the single task of a one-task routine
closes the routine with payload `end` set, and uncompleting that task
reopens it with `end` cleared. -/
theorem c4_last_task_rollup_witness :
    TaskAction.complete 0
        { status := "opened", data := { tasks := some [{}] } }
        { clock := fun k => k } =
      .ok (true,
        { status := "closed", updated := some 6,
          data := { end_ := some 4, notified := some 5,
                    tasks := some [{ start := some 0, end_ := some 0,
                                     notified := some 3 }] } },
        { clock := fun k => k, ticks := 7,
          events := [⟨"task", "complete"⟩, ⟨"routine", "complete"⟩] }) ∧
    (({ status := "closed", updated := some 6,
          data := { end_ := some 4, notified := some 5,
                    tasks := some [{ start := some 0, end_ := some 0,
                                     notified := some 3 }] } } : Model).status = "closed" ∧
      (({ end_ := some 4, notified := some 5,
          tasks := some [{ start := some 0, end_ := some 0,
                           notified := some 3 }] } : ModelData).end_).isSome = true) ∧
    (({ end_ := none, notified := some 10,
        tasks := some [{ start := some 0, end_ := none,
                         notified := some 9 }] } : ModelData).end_ = none ∧
      ({ status := "opened", updated := some 11,
         data := { end_ := none, notified := some 10,
                   tasks := some [{ start := some 0, end_ := none,
                                    notified := some 9 }] } } : Model).status = "opened") := by
  have heq1 : TaskAction.complete 0
      { status := "opened", data := { tasks := some [{}] } }
      { clock := fun k => k } =
    .ok (true,
      { status := "closed", updated := some 6,
        data := { end_ := some 4, notified := some 5,
                  tasks := some [{ start := some 0, end_ := some 0,
                                   notified := some 3 }] } },
      { clock := fun k => k, ticks := 7,
        events := [⟨"task", "complete"⟩, ⟨"routine", "complete"⟩] }) := rfl
  have hothers : ∀ (j : Nat) (u : RTask), j ≠ 0 →
      ([ ({} : RTask) ])[j]? = some u →
      u.start.isSome = true ∧ u.end_.isSome = true := by
    intro j u hj hju
    cases j with
    | zero => exact absurd rfl hj
    | succ n => simp at hju
  have h := (c4_last_task_rollup
    { status := "opened", data := { tasks := some [{}] } }
    { clock := fun k => k } [{}] 0 {} rfl (by simp) rfl hothers).1
    true _ _ heq1
  have heq2 := h.2.2.2 true
    { status := "opened", updated := some 11,
      data := { end_ := none, notified := some 10,
                tasks := some [{ start := some 0, end_ := none,
                                 notified := some 9 }] } }
    { clock := fun k => k, ticks := 12,
      events := [⟨"task", "complete"⟩, ⟨"routine", "complete"⟩,
                 ⟨"task", "uncomplete"⟩, ⟨"routine", "uncomplete"⟩] } rfl
  exact ⟨heq1, ⟨h.2.1, h.2.2.1⟩, ⟨heq2.2.1, heq2.2.2⟩⟩

theorem find?_replace (l : List Model) (aid : Nat) (a a' : Model)
    (hfind : l.find? (fun x => x.id = aid) = some a) (hid : a'.id = a.id) :
    (l.map (fun x => if x.id = a'.id then a' else x)).find?
      (fun x => x.id = aid) = some a' := by
  have haid : a.id = aid := by
    have := List.find?_some hfind
    simpa using this
  induction l with
  | nil => simp at hfind
  | cons y l ih =>
    rw [List.map_cons]
    by_cases hy : y.id = aid
    · rw [List.find?_cons_of_pos _ (by simpa using hy)] at hfind
      injection hfind with hfind
      subst hfind
      rw [if_pos (by rw [hid])]
      apply List.find?_cons_of_pos
      simp [hid, haid]
    · rw [List.find?_cons_of_neg _ (by simpa using hy)] at hfind
      have hyne : ¬ y.id = a'.id := by
        rw [hid, haid]
        exact hy
      rw [if_neg hyne]
      rw [List.find?_cons_of_neg _ (by simpa using hy)]
      exact ih hfind

theorem map_replace_append (l : List Model) (m0 mm : Model)
    (h0 : m0.id = mm.id) (hfresh : ∀ x ∈ l, x.id ≠ mm.id) :
    (l ++ [m0]).map (fun x => if x.id = mm.id then mm else x) = l ++ [mm] := by
  rw [List.map_append]
  congr 1
  · induction l with
    | nil => rfl
    | cons y l ih =>
      rw [List.map_cons, if_neg (hfresh y (by simp))]
      rw [ih (fun x hx => hfresh x (by simp [hx]))]
  · simp [h0]

theorem rightById_ok (aid : Nat) (w w' : World)
    (h : AreaValue.rightById aid w = .ok w') :
    (∃ es, w'.events = w.events ++ es) ∧
    (∀ a, w.areas.find? (fun x => x.id = aid) = some a →
      ∃ a1, w'.areas.find? (fun x => x.id = aid) = some a1 ∧
        a1.status = (if a.status = "negative" then "positive" else a.status)) ∧
    w'.acts = w.acts ∧ w'.nextId = w.nextId := by
  unfold AreaValue.rightById at h
  cases hfind : w.areas.find? (fun x => x.id = aid) with
  | none => rw [hfind] at h; simp at h
  | some a0 =>
    rw [hfind] at h
    dsimp only at h
    unfold BaseValue.right BaseStatus.notify tick storeArea at h
    split at h
    · rename_i hneg
      injection h with h1
      subst h1
      dsimp only
      refine ⟨⟨[⟨"area", "right"⟩], rfl⟩, ?_, rfl, rfl⟩
      intro a hfa
      injection hfa with hfa
      subst hfa
      refine ⟨_, find?_replace w.areas aid a0
        { a0 with status := "positive", updated := some (w.clock (w.ticks + 1)),
                  data := { a0.data with notified := some (w.clock w.ticks) } }
        hfind rfl, ?_⟩
      rw [if_pos hneg]
    · rename_i hpos
      injection h with h1
      subst h1
      dsimp only
      refine ⟨⟨[], by simp⟩, ?_, rfl, rfl⟩
      intro a hfa
      injection hfa with hfa
      subst hfa
      refine ⟨_, find?_replace w.areas aid a0 _ hfind rfl, ?_⟩
      rw [if_neg hpos]

theorem actCreate_areas (p : Nat) (s : Option String) (tpl : Tpl) (w : World) :
    (ActValue.create p s tpl w).2.areas = w.areas := by
  unfold ActValue.create ToDoAction.create BaseStatus.notify tick storeAct storeTodo
  dsimp only
  split
  · split <;> rfl
  · rfl

theorem actCreate_events (p : Nat) (s : Option String) (tpl : Tpl) (w : World) :
    ∃ es, (ActValue.create p s tpl w).2.events = w.events ++ es := by
  unfold ActValue.create ToDoAction.create BaseStatus.notify tick storeAct storeTodo
  dsimp only
  split
  · split
    · exact ⟨[⟨"act", "create"⟩, ⟨"todo", "create"⟩], by simp⟩
    · exact ⟨[⟨"act", "create"⟩], rfl⟩
  · exact ⟨[⟨"act", "create"⟩], rfl⟩

theorem actCreate_acts (p : Nat) (tpl : Tpl) (w : World)
    (hfresh : ∀ x ∈ w.acts, x.id ≠ w.nextId) :
    ∃ newAct, (ActValue.create p (some "positive") tpl w).2.acts = w.acts ++ [newAct] ∧
      newAct.status = "positive" ∧ newAct.personId = p ∧
      newAct.data.text = tpl.text := by
  unfold ActValue.create BaseStatus.notify tick storeAct
  dsimp only
  rw [if_neg (by simp)]
  have hacts := map_replace_append w.acts
    { id := w.nextId, personId := p, name := tpl.toData.name.getD "",
      status := (some "positive").getD (tpl.toData.status.getD "opened"),
      created := 0, updated := none, data := tpl.toData }
    { id := w.nextId, personId := p, name := tpl.toData.name.getD "",
      status := (some "positive").getD (tpl.toData.status.getD "opened"),
      created := 0, updated := some (w.clock (w.ticks + 1)),
      data := { tpl.toData with notified := some (w.clock w.ticks) } }
    rfl hfresh
  exact ⟨_, hacts, rfl, rfl, rfl⟩

theorem notify_fst_personId (k a : String) (m : Model) (w : World) :
    (BaseStatus.notify k a m w).1.personId = m.personId := rfl

theorem notify_snd_events (k a : String) (m : Model) (w : World) :
    (BaseStatus.notify k a m w).2.events = w.events ++ [⟨k, a⟩] := rfl

theorem notify_snd_acts (k a : String) (m : Model) (w : World) :
    (BaseStatus.notify k a m w).2.acts = w.acts := rfl

theorem notify_fst_dataArea (k a : String) (m : Model) (w : World) :
    (BaseStatus.notify k a m w).1.data.area = m.data.area := rfl

theorem notify_fst_dataAct (k a : String) (m : Model) (w : World) :
    (BaseStatus.notify k a m w).1.data.act = m.data.act := rfl

/-- Creating an act with the explicit status "positive" keyword publishes
exactly one "act create" message (the negative-status ToDo cascade cannot
fire). -/
theorem actCreate_pos_events (p : Nat) (tpl : Tpl) (w : World) :
    (ActValue.create p (some "positive") tpl w).2.events =
      w.events ++ [⟨"act", "create"⟩] := by
  unfold ActValue.create BaseStatus.notify tick storeAct
  dsimp only
  rw [if_neg (by simp)]


/-- **C5.** When ToDo complete's guard passes (payload `end` unset or
status not terminal), a successful call closes the todo with `end` set
and a "todo complete" notification, flips the referenced Area
negative→positive (idempotently) when payload `area` is present, and
appends a new Act with status "positive" built from the payload's `act`
template when present; completing an already-closed ToDo returns false
and changes nothing (in particular it does not re-flip the area). -/
theorem c5_todo_complete_cascade (m : Model) (w : World) :
    ((m.data.end_ = none ∨ m.status ≠ "closed") →
      ∀ b m1 w1, ToDoAction.complete m w = .ok (b, m1, w1) →
      b = true ∧ m1.status = "closed" ∧ m1.data.end_.isSome = true ∧
      (∃ tail, w1.events = w.events ++ ⟨"todo", "complete"⟩ :: tail) ∧
      (∀ aid a, m.data.area = some aid →
        w.areas.find? (fun x => x.id = aid) = some a →
        ∃ a1, w1.areas.find? (fun x => x.id = aid) = some a1 ∧
          a1.status = (if a.status = "negative" then "positive" else a.status)) ∧
      (∀ tpl, m.data.act = some tpl → (∀ x ∈ w.acts, x.id ≠ w.nextId) →
        ∃ newAct, w1.acts = w.acts ++ [newAct] ∧ newAct.status = "positive" ∧
          newAct.personId = m.personId ∧ newAct.data.text = tpl.text)) ∧
    (m.data.end_.isSome = true → m.status = "closed" →
      ToDoAction.complete m w = .ok (false, m, w)) := by
  constructor
  · intro hguard b m1 w1 h
    unfold ToDoAction.complete at h
    rw [if_pos hguard] at h
    dsimp only at h
    rw [notify_fst_dataArea, notify_fst_dataAct] at h
    dsimp only at h
    split at h
    · -- payload has an `area` id
      rename_i aid ha
      split at h
      · simp at h
      · rename_i w2 hw2
        have hrprops := rightById_ok aid _ w2 hw2
        split at h
        · -- payload has an `act` template
          rename_i tpl hact
          injection h with h1
          injection h1 with h1 h2
          injection h2 with h2 h3
          subst h2; subst h3
          refine ⟨h1.symm, rfl, rfl, ?_, ?_, ?_⟩
          · obtain ⟨es1, hes1⟩ := hrprops.1
            refine ⟨es1 ++ [⟨"act", "create"⟩], ?_⟩
            rw [notify_fst_personId]
            dsimp only
            refine (actCreate_pos_events m.personId tpl w2).trans ?_
            rw [hes1, notify_snd_events]
            simp [tick]
          · intro aid' a haid hfa
            rw [ha] at haid
            injection haid with haid
            subst haid
            rw [actCreate_areas]
            exact hrprops.2.1 a hfa
          · intro tpl' htpl hfresh
            rw [hact] at htpl
            injection htpl with htpl
            subst htpl
            rw [notify_fst_personId]
            dsimp only
            have hfr : ∀ x ∈ w2.acts, x.id ≠ w2.nextId := by
              rw [hrprops.2.2.1, hrprops.2.2.2]
              exact hfresh
            obtain ⟨newAct, hacts, hst, hp, ht⟩ :=
              actCreate_acts m.personId tpl w2 hfr
            refine ⟨newAct, ?_, hst, hp, ht⟩
            rw [hacts, hrprops.2.2.1, notify_snd_acts]
            rfl
        · -- no `act` template
          rename_i hact
          injection h with h1
          injection h1 with h1 h2
          injection h2 with h2 h3
          subst h2; subst h3
          refine ⟨h1.symm, rfl, rfl, ?_, ?_, ?_⟩
          · obtain ⟨es1, hes1⟩ := hrprops.1
            refine ⟨es1, ?_⟩
            rw [hes1, notify_snd_events]
            simp [tick]
          · intro aid' a haid hfa
            rw [ha] at haid
            injection haid with haid
            subst haid
            exact hrprops.2.1 a hfa
          · intro tpl htpl hfresh
            rw [hact] at htpl
            simp at htpl
    · -- no `area` id
      rename_i ha
      split at h
      · -- payload has an `act` template
        rename_i tpl hact
        injection h with h1
        injection h1 with h1 h2
        injection h2 with h2 h3
        subst h2; subst h3
        refine ⟨h1.symm, rfl, rfl, ?_, ?_, ?_⟩
        · refine ⟨[⟨"act", "create"⟩], ?_⟩
          rw [notify_fst_personId]
          dsimp only
          refine (actCreate_pos_events m.personId tpl
            (BaseStatus.notify "todo" "complete"
              { m with status := "closed", data.end_ := some (tick w).1 }
              (tick w).2).2).trans ?_
          rw [notify_snd_events]
          simp [tick]
        · intro aid a haid hfa
          rw [ha] at haid
          simp at haid
        · intro tpl' htpl hfresh
          rw [hact] at htpl
          injection htpl with htpl
          subst htpl
          rw [notify_fst_personId]
          dsimp only
          obtain ⟨newAct, hacts, hst, hp, ht⟩ := actCreate_acts m.personId tpl
            (BaseStatus.notify "todo" "complete"
              { m with status := "closed", data.end_ := some (tick w).1 }
              (tick w).2).2 (by exact hfresh)
          refine ⟨newAct, ?_, hst, hp, ht⟩
          refine hacts.trans ?_
          rw [notify_snd_acts]
          rfl
      · -- neither `area` nor `act`
        rename_i hact
        injection h with h1
        injection h1 with h1 h2
        injection h2 with h2 h3
        subst h2; subst h3
        refine ⟨h1.symm, rfl, rfl, ⟨[], notify_snd_events _ _ _ _⟩, ?_, ?_⟩
        · intro aid a haid hfa
          rw [ha] at haid
          simp at haid
        · intro tpl htpl hfresh
          rw [hact] at htpl
          simp at htpl
  · intro hend hclosed
    unfold ToDoAction.complete
    rw [if_neg (by
      push_neg
      refine ⟨?_, hclosed⟩
      rw [← Option.ne_none_iff_isSome] at hend
      exact hend)]

/-- Witness for C5: completing an open ToDo whose payload carries
`area = 9` (a negative area) and an `act` template flips the area to
positive and appends a positive act; re-completing the now-closed ToDo
returns false and changes nothing. -/
theorem c5_todo_complete_cascade_witness :
    (∃ a1,
      ({ todos := [],
         areas := [{ id := 9, personId := 1, status := "positive", updated := some 4,
                     data := { notified := some 3 } }],
         acts := [{ id := 0, personId := 1, status := "positive", updated := some 6,
                    data := { notified := some 5, text := some "resolution" } }],
         nextId := 1, clock := fun k => k, ticks := 7,
         events := [⟨"todo", "complete"⟩, ⟨"area", "right"⟩, ⟨"act", "create"⟩] } :
          World).areas.find? (fun x => x.id = 9) = some a1 ∧
      a1.status = "positive") ∧
    (∃ newAct,
      ({ todos := [],
         areas := [{ id := 9, personId := 1, status := "positive", updated := some 4,
                     data := { notified := some 3 } }],
         acts := [{ id := 0, personId := 1, status := "positive", updated := some 6,
                    data := { notified := some 5, text := some "resolution" } }],
         nextId := 1, clock := fun k => k, ticks := 7,
         events := [⟨"todo", "complete"⟩, ⟨"area", "right"⟩, ⟨"act", "create"⟩] } :
          World).acts = [] ++ [newAct] ∧
      newAct.status = "positive" ∧ newAct.personId = 1 ∧
      newAct.data.text = some "resolution") ∧
    ToDoAction.complete
      { id := 5, personId := 1, status := "closed", updated := some 2,
        data := { end_ := some 0, notified := some 1, area := some 9,
                  act := some { text := some "resolution" } } }
      { todos := [],
        areas := [{ id := 9, personId := 1, status := "positive", updated := some 4,
                    data := { notified := some 3 } }],
        acts := [{ id := 0, personId := 1, status := "positive", updated := some 6,
                   data := { notified := some 5, text := some "resolution" } }],
        nextId := 1, clock := fun k => k, ticks := 7,
        events := [⟨"todo", "complete"⟩, ⟨"area", "right"⟩, ⟨"act", "create"⟩] } =
      .ok (false,
        { id := 5, personId := 1, status := "closed", updated := some 2,
          data := { end_ := some 0, notified := some 1, area := some 9,
                    act := some { text := some "resolution" } } },
        { todos := [],
          areas := [{ id := 9, personId := 1, status := "positive", updated := some 4,
                      data := { notified := some 3 } }],
          acts := [{ id := 0, personId := 1, status := "positive", updated := some 6,
                     data := { notified := some 5, text := some "resolution" } }],
          nextId := 1, clock := fun k => k, ticks := 7,
          events := [⟨"todo", "complete"⟩, ⟨"area", "right"⟩, ⟨"act", "create"⟩] }) := by
  have h := (c5_todo_complete_cascade
    { id := 5, personId := 1, status := "opened",
      data := { area := some 9, act := some { text := some "resolution" } } }
    { areas := [{ id := 9, personId := 1, status := "negative" }],
      clock := fun k => k }).1 (Or.inl rfl) true
    { id := 5, personId := 1, status := "closed", updated := some 2,
      data := { end_ := some 0, notified := some 1, area := some 9,
                act := some { text := some "resolution" } } }
    { todos := [],
      areas := [{ id := 9, personId := 1, status := "positive", updated := some 4,
                  data := { notified := some 3 } }],
      acts := [{ id := 0, personId := 1, status := "positive", updated := some 6,
                 data := { notified := some 5, text := some "resolution" } }],
      nextId := 1, clock := fun k => k, ticks := 7,
      events := [⟨"todo", "complete"⟩, ⟨"area", "right"⟩, ⟨"act", "create"⟩] }
    rfl
  refine ⟨?_, ?_, ?_⟩
  · obtain ⟨a1, hf, hs⟩ := h.2.2.2.2.1 9
      { id := 9, personId := 1, status := "negative" } rfl rfl
    exact ⟨a1, hf, by simpa using hs⟩
  · exact h.2.2.2.2.2 { text := some "resolution" } rfl
      (by intro x hx; cases hx)
  · exact (c5_todo_complete_cascade
      { id := 5, personId := 1, status := "closed", updated := some 2,
        data := { end_ := some 0, notified := some 1, area := some 9,
                  act := some { text := some "resolution" } } }
      { todos := [],
        areas := [{ id := 9, personId := 1, status := "positive", updated := some 4,
                    data := { notified := some 3 } }],
        acts := [{ id := 0, personId := 1, status := "positive", updated := some 6,
                   data := { notified := some 5, text := some "resolution" } }],
        nextId := 1, clock := fun k => k, ticks := 7,
        events := [⟨"todo", "complete"⟩, ⟨"area", "right"⟩,
                   ⟨"act", "create"⟩] }).2 rfl rfl

theorem dlookup_append (k : String) (a b : List (String × Val)) :
    dlookup k (a ++ b) =
      match dlookup k a with
      | some v => some v
      | none => dlookup k b := by
  induction a with
  | nil => simp [dlookup]
  | cons kv a ih =>
    rw [List.cons_append, dlookup, dlookup]
    by_cases hk : kv.1 = k
    · rw [if_pos hk, if_pos hk]
    · rw [if_neg hk, if_neg hk, ih]

theorem dlookup_updateMap (k : String) (a b : List (String × Val)) :
    dlookup k (a.map (fun kv =>
      match dlookup kv.1 b with
      | some v => (kv.1, v)
      | none => kv)) =
      match dlookup k a with
      | some v => some ((dlookup k b).getD v)
      | none => none := by
  induction a with
  | nil => simp [dlookup]
  | cons kv a ih =>
    rw [List.map_cons, dlookup, dlookup]
    by_cases hk : kv.1 = k
    · subst hk
      cases hb : dlookup kv.1 b with
      | none => simp
      | some v => simp
    · cases hb : dlookup kv.1 b with
      | none => simp [hk, ih]
      | some v => simp [hk, ih]

theorem dlookup_filterKey (k : String) (p : String → Bool)
    (b : List (String × Val)) :
    dlookup k (b.filter (fun kv => p kv.1)) =
      if p k then dlookup k b else none := by
  induction b with
  | nil => simp [dlookup]
  | cons kv b ih =>
    rw [List.filter_cons]
    by_cases hk : kv.1 = k
    · subst hk
      cases hp : p kv.1 with
      | true => simp [hp, dlookup]
      | false => simp [hp, dlookup, ih]
    · cases hp : p kv.1 with
      | true => simp [hp, dlookup, hk, ih]
      | false => simp [hp, dlookup, hk, ih]

theorem dlookup_dictUpdate (k : String) (a b : List (String × Val)) :
    dlookup k (dictUpdate a b) =
      match dlookup k b with
      | some v => some v
      | none => dlookup k a := by
  unfold dictUpdate
  rw [dlookup_append, dlookup_updateMap,
    dlookup_filterKey k (fun s => (dlookup s a).isNone) b]
  cases ha : dlookup k a with
  | some v =>
    cases hb : dlookup k b with
    | some u => simp
    | none => simp
  | none =>
    cases hb : dlookup k b with
    | some u => simp
    | none => simp

/-- **C6 (counterexample).** The merge in build is Python `dict.update`,
which is shallow: with template `{"a": {"x": 1, "y": 2}, "keep": 5}` and
caller data `{"a": {"x": 3}}`, the nested template key `a.y` does not
conflict with any caller key, yet it is absent from the merged result —
the caller's whole `a` object replaces the template's — so "deep-merges
... while non-conflicting nested template keys are preserved" is false. -/
theorem c6_counterexample :
    BaseStatus.mergeData
        [("a", Val.obj [("x", Val.n 1), ("y", Val.n 2)]), ("keep", Val.n 5)]
        (some [("a", Val.obj [("x", Val.n 3)])])
      = [("a", Val.obj [("x", Val.n 3)]), ("keep", Val.n 5)] ∧
    (match dlookup "a" [("a", Val.obj [("x", Val.n 1), ("y", Val.n 2)]),
        ("keep", Val.n 5)] with
     | some (Val.obj kvs) => dlookup "y" kvs
     | _ => none) = some (Val.n 2) ∧
    (match dlookup "a" [("a", Val.obj [("x", Val.n 3)])] with
     | some (Val.obj kvs) => dlookup "y" kvs
     | _ => none) = none ∧
    (match dlookup "a" (BaseStatus.mergeData
        [("a", Val.obj [("x", Val.n 1), ("y", Val.n 2)]), ("keep", Val.n 5)]
        (some [("a", Val.obj [("x", Val.n 3)])])) with
     | some (Val.obj kvs) => dlookup "y" kvs
     | _ => none) = none :=
  ⟨rfl, rfl, rfl, rfl⟩

/-- **C6 (amended).** Builder's merge of the initial payload starts from
the empty map, applies Python dict.update with the resolved template
payload, then dict.update with the caller's inline data: per TOP-LEVEL
key the caller's value wins outright (replacing the whole nested value),
and template keys the caller does not supply are preserved; the merge
does not recurse into nested objects. -/
theorem c6_merge_shallow (template : List (String × Val))
    (dataArg : Option (List (String × Val))) (k : String) :
    dlookup k (BaseStatus.mergeData template dataArg) =
      match dataArg with
      | some dat =>
        match dlookup k dat with
        | some v => some v
        | none => dlookup k template
      | none => dlookup k template := by
  simp only [BaseStatus.mergeData]
  cases dataArg with
  | none =>
    cases htpl : template.isEmpty with
    | true =>
      have h0 := List.isEmpty_iff.mp htpl
      subst h0
      simp
    | false =>
      simp only [htpl, Bool.false_eq_true, if_false]
      rw [dlookup_dictUpdate]
      cases ht : dlookup k template with
      | some v => rfl
      | none => simp [dlookup]
  | some dat =>
    cases htpl : template.isEmpty with
    | true =>
      have h0 := List.isEmpty_iff.mp htpl
      subst h0
      simp only [List.isEmpty_nil, if_true]
      rw [dlookup_dictUpdate]
    | false =>
      simp only [htpl, Bool.false_eq_true, if_false]
      rw [dlookup_dictUpdate, dlookup_dictUpdate]
      cases hd : dlookup k dat with
      | some v => rfl
      | none =>
        cases ht : dlookup k template with
        | some v => rfl
        | none => simp [dlookup]

theorem mem_insertDesc (a t : Model) (l : List Model) :
    a ∈ insertDesc t l ↔ a = t ∨ a ∈ l := by
  induction l with
  | nil => simp [insertDesc]
  | cons u us ih =>
    unfold insertDesc
    split
    · simp [List.mem_cons]
    · simp only [List.mem_cons, ih]
      tauto

theorem mem_sortDesc (a : Model) (l : List Model) : a ∈ sortDesc l ↔ a ∈ l := by
  induction l with
  | nil => simp [sortDesc]
  | cons t ts ih => simp [sortDesc, mem_insertDesc, ih]

theorem insertDesc_pairwise (t : Model) (l : List Model)
    (h : l.Pairwise (fun a b : Model => b.created ≤ a.created)) :
    (insertDesc t l).Pairwise (fun a b : Model => b.created ≤ a.created) := by
  induction l with
  | nil => simp [insertDesc]
  | cons u us ih =>
    rw [List.pairwise_cons] at h
    obtain ⟨hu, hus⟩ := h
    unfold insertDesc
    split
    · rename_i hle
      refine List.Pairwise.cons ?_ (List.Pairwise.cons hu hus)
      intro b hb
      cases List.mem_cons.mp hb with
      | inl hb => subst hb; exact hle
      | inr hb => exact le_trans (hu b hb) hle
    · rename_i hgt
      refine List.Pairwise.cons ?_ (ih hus)
      intro b hb
      cases (mem_insertDesc b t us).mp hb with
      | inl hb => subst hb; exact le_of_not_le hgt
      | inr hb => exact hu b hb

theorem sortDesc_pairwise (l : List Model) :
    (sortDesc l).Pairwise (fun a b : Model => b.created ≤ a.created) := by
  induction l with
  | nil => simp [sortDesc]
  | cons t ts ih => exact insertDesc_pairwise t _ ih

theorem mem_openTodosDesc (td : Model) (pid : Nat) (w : World) :
    td ∈ openTodosDesc pid w ↔
      td ∈ w.todos ∧ td.personId = pid ∧ td.status = "opened" := by
  unfold openTodosDesc
  rw [mem_sortDesc]
  simp [List.mem_filter, Bool.and_eq_true, beq_iff_eq, and_assoc]

theorem assignIdsFrom_getElem? (n i : Nat) (ts : List RTask) :
    (assignIdsFrom n ts)[i]? = ts[i]?.map
      (fun t => if t.id = none then { t with id := some (n + i) } else t) := by
  induction ts generalizing n i with
  | nil => simp [assignIdsFrom]
  | cons t ts ih =>
    cases i with
    | zero => simp [assignIdsFrom]
    | succ j =>
      simp only [assignIdsFrom, List.getElem?_cons_succ]
      rw [ih (n + 1) j, show n + 1 + j = n + (j + 1) from by omega]

theorem mapTodoTasks_ok (tds : List Model) (ts : List RTask)
    (h : mapTodoTasks tds = .ok ts) :
    ts.length = tds.length ∧
      ∀ (i : Nat) (td : Model), tds[i]? = some td →
        ∃ s, td.data.text = some s ∧
          ts[i]? = some { text := s, todo := some td.id } := by
  induction tds generalizing ts with
  | nil =>
    unfold mapTodoTasks at h
    injection h with h
    subst h
    refine ⟨rfl, ?_⟩
    intro i td hi
    simp at hi
  | cons td0 tds ih =>
    unfold mapTodoTasks at h
    split at h
    · exact absurd h (by simp)
    · rename_i t0 heq0
      split at h
      · exact absurd h (by simp)
      · rename_i ts1 heq1
        injection h with h
        subst h
        obtain ⟨hlen, hidx⟩ := ih ts1 heq1
        unfold todoToTask at heq0
        split at heq0
        · rename_i s0 htext0
          injection heq0 with heq0
          subst heq0
          refine ⟨by simp [hlen], ?_⟩
          intro i td hi
          cases i with
          | zero =>
            simp only [List.getElem?_cons_zero] at hi
            injection hi with hi
            subst hi
            exact ⟨s0, htext0, by simp⟩
          | succ j =>
            simp only [List.getElem?_cons_succ] at hi
            obtain ⟨s, hs, hts⟩ := hidx j td hi
            exact ⟨s, hs, by simpa using hts⟩
        · exact absurd heq0 (by simp)

/-- **C7.** When the merged data has `todos: true`, RoutineAction.build
places one task per open ToDo of the resolved person — in
creation-descending order, with `text` copied from the todo payload and
`todo` set to the todo's id — ahead of any explicitly supplied tasks,
then assigns `id` = position index to every task of the final list that
lacks an id, leaving tasks that already carry one unchanged. -/
theorem c7_build_todos (pid : Nat) (data : ModelData) (w : World)
    (pre : List RTask)
    (h1 : data.todos = some true)
    (h2 : mapTodoTasks (openTodosDesc pid w) = .ok pre) :
    RoutineAction.buildTasks (some pid) data w =
      .ok { data with tasks := some (assignIdsFrom 0 (pre ++ data.tasks.getD [])) } ∧
    pre.length = (openTodosDesc pid w).length ∧
    (∀ (i : Nat) (td : Model), (openTodosDesc pid w)[i]? = some td →
      ∃ s, td.data.text = some s ∧
        pre[i]? = some { text := s, todo := some td.id }) ∧
    (openTodosDesc pid w).Pairwise (fun a b : Model => b.created ≤ a.created) ∧
    (∀ td : Model, td ∈ openTodosDesc pid w ↔
      td ∈ w.todos ∧ td.personId = pid ∧ td.status = "opened") ∧
    (∀ (ts : List RTask) (i : Nat),
      (assignIdsFrom 0 ts)[i]? =
        ts[i]?.map (fun t => if t.id = none then { t with id := some i } else t)) := by
  obtain ⟨hlen, hidx⟩ := mapTodoTasks_ok _ _ h2
  refine ⟨?_, hlen, hidx, sortDesc_pairwise _, fun td => mem_openTodosDesc td pid w, ?_⟩
  · cases hdt : data.tasks with
    | none =>
      simp only [RoutineAction.buildTasks, h1, h2, hdt, Option.getD_none,
        List.append_nil]
      rfl
    | some ex =>
      simp only [RoutineAction.buildTasks, h1, h2, hdt, Option.getD_some]
      rfl
  · intro ts i
    rw [assignIdsFrom_getElem?, Nat.zero_add]

theorem c7_build_todos_witness :
    RoutineAction.buildTasks (some 1)
        { todos := some true, tasks := some [{ id := some 7, text := "explicit" }] }
        { todos := [
            { id := 10, personId := 1, status := "opened", created := 3,
              data := { text := some "older" } },
            { id := 11, personId := 1, status := "opened", created := 5,
              data := { text := some "newer" } },
            { id := 12, personId := 2, status := "opened", created := 9,
              data := { text := some "other" } }] } =
      .ok { todos := some true,
            tasks := some [
              { id := some 0, text := "newer", todo := some 11 },
              { id := some 1, text := "older", todo := some 10 },
              { id := some 7, text := "explicit" }] } :=
  (c7_build_todos 1
    { todos := some true, tasks := some [{ id := some 7, text := "explicit" }] }
    { todos := [
        { id := 10, personId := 1, status := "opened", created := 3,
          data := { text := some "older" } },
        { id := 11, personId := 1, status := "opened", created := 5,
          data := { text := some "newer" } },
        { id := 12, personId := 2, status := "opened", created := 9,
          data := { text := some "other" } }] }
    [{ text := "newer", todo := some 11 }, { text := "older", todo := some 10 }]
    rfl rfl).1

/-- **C8 (counterexample).** The clock is NOT read once per operation:
`BaseStatus.notify` calls `time.time()` separately for `data["notified"]`
and `updated`, and `TaskAction.notify` calls it three times. With a clock
that advances by one per read, one notify call stamps `notified` with 0,
`updated` with 1, and the task's `notified` with 2 — the fields of a
single logical operation disagree. -/
theorem c8_counterexample :
    (BaseStatus.notify "todo" "remind" {} { clock := fun k => k }).1.data.notified
      = some 0 ∧
    (BaseStatus.notify "todo" "remind" {} { clock := fun k => k }).1.updated
      = some 1 ∧
    (TaskAction.notifyAt "remind" 0 { data := { tasks := some [{}] } }
        { clock := fun k => k }).1.data.notified = some 0 ∧
    (TaskAction.notifyAt "remind" 0 { data := { tasks := some [{}] } }
        { clock := fun k => k }).1.updated = some 1 ∧
    (TaskAction.notifyAt "remind" 0 { data := { tasks := some [{}] } }
        { clock := fun k => k }).1.data.tasks = some [{ notified := some 2 }] ∧
    (BaseStatus.notify "todo" "remind" {} { clock := fun k => k }).1.data.notified
      ≠ (BaseStatus.notify "todo" "remind" {} { clock := fun k => k }).1.updated :=
  ⟨rfl, rfl, rfl, rfl, rfl, by decide⟩

/-- **C8 (amended).** Each stamped field gets its own `time.time()` read:
entity notify stamps `data["notified"]` from the first read and `updated`
from the second (two reads); task notify stamps the routine's
`data["notified"]`, the routine's `updated`, and the task's `notified`
from three consecutive reads. The fields of one operation agree exactly
when the clock does not advance between those reads, e.g. for a constant
clock. -/
theorem c8_clock_per_read (kind action : String) (m : Model) (w : World)
    (i : Nat) :
    (BaseStatus.notify kind action m w).1.data.notified
      = some (w.clock w.ticks) ∧
    (BaseStatus.notify kind action m w).1.updated
      = some (w.clock (w.ticks + 1)) ∧
    (BaseStatus.notify kind action m w).2.ticks = w.ticks + 2 ∧
    (TaskAction.notifyAt action i m w).1.data.notified
      = some (w.clock w.ticks) ∧
    (TaskAction.notifyAt action i m w).1.updated
      = some (w.clock (w.ticks + 1)) ∧
    (TaskAction.notifyAt action i m w).1.data.tasks
      = m.data.tasks.map
          (listModify (fun u => { u with notified := some (w.clock (w.ticks + 2)) }) i) ∧
    (TaskAction.notifyAt action i m w).2.ticks = w.ticks + 3 ∧
    ((∀ a b : Nat, w.clock a = w.clock b) →
      (BaseStatus.notify kind action m w).1.data.notified
        = (BaseStatus.notify kind action m w).1.updated) :=
  ⟨rfl, rfl, rfl, rfl, rfl, rfl, rfl, fun h => congrArg some (h w.ticks (w.ticks + 1))⟩

theorem c8_clock_per_read_witness :
    (BaseStatus.notify "todo" "remind" {} { clock := fun _ => 42 }).1.data.notified
      = (BaseStatus.notify "todo" "remind" {} { clock := fun _ => 42 }).1.updated :=
  (c8_clock_per_read "todo" "remind" {} { clock := fun _ => 42 } 0).2.2.2.2.2.2.2
    (fun _ _ => rfl)

/-- **C9.** When no explicit person id is passed and the merged data's
`person` name matches no stored person, the `.one()` lookup raises
NotFound: the build fails with that error, create propagates it, and the
POST handler leaves the store unchanged — no entity row, no event, no
clock advance. -/
theorem c9_person_notfound (kind : String) (kw : BKwargs) (bw : BW)
    (tpl : List (String × Val)) (nm : String)
    (htpl : kw.template = some tpl)
    (hperson : dlookup "person" (BaseStatus.mergeData tpl kw.dataArg)
      = some (Val.s nm))
    (hnone : bw.persons.filter (fun p => p.name = nm) = []) :
    BaseStatus.build kw bw = .error "NotFound" ∧
    BaseStatus.createD kind kw bw = .error "NotFound" ∧
    StatusCL.postD kind kw bw = bw := by
  have hb : BaseStatus.build kw bw = .error "NotFound" := by
    simp only [BaseStatus.build, htpl, hperson, hnone]
  refine ⟨hb, ?_, ?_⟩
  · simp only [BaseStatus.createD, hb]
  · simp only [StatusCL.postD, BaseStatus.createD, hb]

theorem c9_person_notfound_witness :
    BaseStatus.build { template := some [("person", Val.s "ghost")] }
        { persons := [⟨1, "amy"⟩] } = .error "NotFound" ∧
    BaseStatus.createD "todo" { template := some [("person", Val.s "ghost")] }
        { persons := [⟨1, "amy"⟩] } = .error "NotFound" ∧
    StatusCL.postD "todo" { template := some [("person", Val.s "ghost")] }
        { persons := [⟨1, "amy"⟩] } = { persons := [⟨1, "amy"⟩] } :=
  c9_person_notfound "todo" { template := some [("person", Val.s "ghost")] }
    { persons := [⟨1, "amy"⟩] } [("person", Val.s "ghost")] "ghost" rfl rfl rfl

/-- **C10.** unskip, unexpire and uncomplete execute `del data["end"]`
without checking the key: whenever the guard passes while `end` is
absent (`skipped`/`expired` true but `end` never set; for uncomplete a
closed status with `end` unset), the call raises KeyError instead of
returning a boolean; when `end` is present the deletion branch is safe
and every one of the three calls returns normally. -/
theorem c10_del_end_keyerror (kind : String) (m : Model) (w : World) :
    (m.data.skipped = some true → m.data.end_ = none →
      BaseAction.unskip kind m w = .error "KeyError: end") ∧
    (m.data.expired = some true → m.data.end_ = none →
      BaseAction.unexpire kind m w = .error "KeyError: end") ∧
    (m.data.end_ = none → m.status = "closed" →
      BaseAction.uncomplete kind m w = .error "KeyError: end") ∧
    (m.data.end_.isSome →
      (∃ r, BaseAction.unskip kind m w = .ok r) ∧
      (∃ r, BaseAction.unexpire kind m w = .ok r) ∧
      (∃ r, BaseAction.uncomplete kind m w = .ok r)) := by
  refine ⟨?_, ?_, ?_, ?_⟩
  · intro hs he
    unfold BaseAction.unskip
    rw [if_pos hs]
    dsimp only
    rw [he]
  · intro hx he
    unfold BaseAction.unexpire
    rw [if_pos hx]
    dsimp only
    rw [he]
  · intro he hst
    unfold BaseAction.uncomplete
    rw [if_pos (Or.inr hst)]
    rw [he]
  · intro hs
    obtain ⟨e, he⟩ := Option.isSome_iff_exists.mp hs
    refine ⟨?_, ?_, ?_⟩
    · unfold BaseAction.unskip
      split
      · dsimp only
        rw [he]
        exact ⟨_, rfl⟩
      · exact ⟨_, rfl⟩
    · unfold BaseAction.unexpire
      split
      · dsimp only
        rw [he]
        exact ⟨_, rfl⟩
      · exact ⟨_, rfl⟩
    · unfold BaseAction.uncomplete
      rw [if_pos (Or.inl hs)]
      rw [he]
      exact ⟨_, rfl⟩

theorem c10_del_end_keyerror_witness :
    BaseAction.unskip "todo" { data := { skipped := some true } } {}
      = .error "KeyError: end" ∧
    BaseAction.unexpire "todo" { data := { expired := some true } } {}
      = .error "KeyError: end" ∧
    BaseAction.uncomplete "todo" { status := "closed" } {}
      = .error "KeyError: end" ∧
    (∃ r, BaseAction.uncomplete "todo" { data := { end_ := some 4 } } {} = .ok r) :=
  ⟨(c10_del_end_keyerror "todo" { data := { skipped := some true } } {}).1 rfl rfl,
   (c10_del_end_keyerror "todo" { data := { expired := some true } } {}).2.1 rfl rfl,
   (c10_del_end_keyerror "todo" { status := "closed" } {}).2.2.1 rfl rfl,
   ((c10_del_end_keyerror "todo" { data := { end_ := some 4 } } {}).2.2.2 rfl).2.2⟩
